import Mathlib

/-!
# infrakit.docker instance plugin: `plugin/instance/instance.go`

A shallow embedding of the tag reconciler (`mergeTags`), the request
translator (`Provision`), the filter builder (`describeGroupRequest`), the
description builder (`describeInstances`) and `Destroy`, followed by the
properties proved about them.

Modelling conventions.

* A Go `string` is a Lean `String`.  Go compares strings byte by byte and Lean
  character by character; on UTF-8 text the two lexicographic orders agree.
* A Go `map[string]V` is `GoMap V`: `none` is the nil map, `some es` is a
  non-nil map whose `range` loop visits the entries `es` from left to right.
  Go leaves the iteration order unspecified, so a statement quantified over
  every entry list covers every iteration order.  A real map holds a key at
  most once: that is `GoMap.WF`.
* A Go pointer `*T` is `Option T`; `nil` is `none`.  The structures reached through the
  pointers of a decoded request are distinct objects, as `json.Unmarshal` allocates
  each of them, so a write through one pointer changes no other entry.
* A Go `error` is the `String` given by its `Error()` method.
* The Docker client is a record of functions (`Client`); the calls a method
  makes on it are recorded, in order, in the `calls` field of a `Run`.
-/

namespace Infrakit

/-! ## Go maps -/

/-- Go `map[string]V`: `none` is nil, `some es` has the entries `es` in iteration order. -/
abbrev GoMap (V : Type) := Option (List (String × V))

namespace GoMap

variable {V : Type}

/-- Entry lookup `m[k]` with the comma-ok result, on the entry list. -/
def lookupE : List (String × V) → String → Option V
  | [], _ => none
  | (k', v) :: es, k => if k' = k then some v else lookupE es k

/-- Map write `m[k] = v` on the entry list: an existing key keeps its place, a new key is added. -/
def setE : List (String × V) → String → V → List (String × V)
  | [], k, v => [(k, v)]
  | (k', v') :: es, k, v => if k' = k then (k, v) :: es else (k', v') :: setE es k v

/-- The entries a `range` loop visits; none for the nil map. -/
def entries : GoMap V → List (String × V)
  | none => []
  | some es => es

/-- The keys of a map, in iteration order. -/
def keys (m : GoMap V) : List String := m.entries.map Prod.fst

/-- Comma-ok lookup `v, ok := m[k]`; reading the nil map finds nothing. -/
def lookup (m : GoMap V) (k : String) : Option V := lookupE m.entries k

/-- A real Go map holds each key at most once. -/
def WF (m : GoMap V) : Prop := m.keys.Nodup

instance (m : GoMap V) : Decidable m.WF := by unfold WF; infer_instance

end GoMap

/-- Plain read `m[k]` of a `map[string]string`: the empty string when the key is missing. -/
def GoMap.get (m : GoMap String) (k : String) : String := (m.lookup k).getD ""

/-! ## Tag reconciler -/

/-- Go string comparison `a <= b`: lexicographic on the characters.  It is the order
`≤` of `String` (see `strLE_iff`), written on the character lists so that it evaluates. -/
def strLE (a b : String) : Prop := a.toList ≤ b.toList

instance : DecidableRel strLE := fun a b => by unfold strLE; infer_instance

/-- Go `sort.Strings`: sorts into ascending order.  The library routine is
not part of the repository; insertion sort stands for it, since the result
of sorting a list of strings by a total order does not depend on the algorithm. -/
def sortStrings (xs : List String) : List String := xs.insertionSort strLE

instance : IsTotal String strLE :=
  ⟨fun a b => by
    have h := le_total a b
    rwa [String.le_iff_toList_le, String.le_iff_toList_le] at h⟩

instance : IsTrans String strLE :=
  ⟨fun a b c hab hbc => by
    have h : a ≤ c := le_trans (String.le_iff_toList_le.mpr hab) (String.le_iff_toList_le.mpr hbc)
    exact String.le_iff_toList_le.mp h⟩

/-- The local variables of `mergeTags` while its loops run, with the warnings logged so far. -/
structure MergeState where
  keys : List String
  tags : List (String × String)
  warnings : List String
  deriving DecidableEq, Repr

/-- The state `mergeTags` starts from: `keys := []string{}`, `tags := map[string]string{}`. -/
def MergeState.init : MergeState := { keys := [], tags := [], warnings := [] }

/-- What the loops of `mergeTags` maintain: the key list is the key sequence of the
merged map, and holds no key twice. -/
def MergeState.Inv (st : MergeState) : Prop :=
  st.keys = st.tags.map Prod.fst ∧ st.keys.Nodup

/-- What `mergeTags` returns, with the warnings it logged through `log.Warnf`. -/
structure MergeResult where
  keys : List String
  tags : GoMap String
  warnings : List String
  deriving DecidableEq, Repr

/-- The body of the inner loop of `mergeTags`, for one entry `k, v` of a tag map. -/
def mergeTags.step (st : MergeState) (kv : String × String) : MergeState :=
  if (GoMap.lookupE st.tags kv.1).isSome then
    { keys := st.keys
      tags := GoMap.setE st.tags kv.1 kv.2
      warnings := st.warnings ++ ["Ovewriting tag value for key " ++ kv.1] }
  else
    { keys := st.keys ++ [kv.1]
      tags := GoMap.setE st.tags kv.1 kv.2
      warnings := st.warnings }

/-- The two nested loops of `mergeTags`, from the state `st`. -/
def mergeTags.loop (st : MergeState) (tagMaps : List (GoMap String)) : MergeState :=
  tagMaps.foldl (fun st tagMap => tagMap.entries.foldl mergeTags.step st) st

/-- Go `mergeTags(tagMaps ...map[string]string) ([]string, map[string]string)`. -/
def mergeTags (tagMaps : List (GoMap String)) : MergeResult :=
  let st := mergeTags.loop MergeState.init tagMaps
  { keys := sortStrings st.keys, tags := some st.tags, warnings := st.warnings }

/-! ## Data model -/

/-- Docker `network.EndpointSettings`: the address the plugin writes and reads, and some of
the further fields, which the plugin carries along untouched. -/
structure EndpointSettings where
  IPAddress : String
  Gateway : String
  MacAddress : String
  Aliases : List String
  deriving DecidableEq, Repr

/-- The Go zero value `network.EndpointSettings{}`. -/
def EndpointSettings.zero : EndpointSettings :=
  { IPAddress := "", Gateway := "", MacAddress := "", Aliases := [] }

/-- Docker `network.NetworkingConfig`: `EndpointsConfig map[string]*EndpointSettings`. -/
structure NetworkingConfig where
  EndpointsConfig : GoMap (Option EndpointSettings)
  deriving DecidableEq, Repr

/-- Docker `container.Config`: the image, the label set, and the environment as a
further field the plugin carries along untouched. -/
structure Config where
  Image : String
  Env : List String
  Labels : GoMap String
  deriving DecidableEq, Repr

/-- Docker `container.HostConfig`, which the plugin never inspects. -/
structure HostConfig where
  NetworkMode : String
  Privileged : Bool
  deriving DecidableEq, Repr

/-- Go `CreateInstanceRequest`, the concrete provision request type. -/
structure CreateInstanceRequest where
  Tags : GoMap String
  Config : Option Config
  HostConfig : Option HostConfig
  NetworkingConfig : Option NetworkingConfig
  NetworkName : String
  deriving DecidableEq, Repr

/-- Infrakit `instance.Spec`: `Properties *types.Any` is the raw JSON text or nil,
`LogicalID *LogicalID` the logical address or nil. -/
structure Spec where
  Properties : Option String
  Tags : GoMap String
  Init : String
  LogicalID : Option String
  Attachments : List (String × String)
  deriving DecidableEq, Repr

/-- Infrakit `instance.Description`. -/
structure Description where
  ID : String
  LogicalID : Option String
  Tags : GoMap String
  deriving DecidableEq, Repr

/-- Docker `types.Container`, one record of a container listing: its id, its label map and
`NetworkSettings.Networks`, the endpoint settings per network name.  The pointers on the
way to an endpoint's address are taken to be non-nil, as in every listing the daemon sends. -/
structure Container where
  ID : String
  Image : String
  State : String
  Labels : GoMap String
  Networks : GoMap EndpointSettings
  deriving DecidableEq, Repr

/-- Docker `types.ContainerRemoveOptions`. -/
structure ContainerRemoveOptions where
  RemoveVolumes : Bool
  RemoveLinks : Bool
  Force : Bool
  deriving DecidableEq, Repr

/-- Docker `filters.Args`, held as the sequence of its `Add(name, value)` calls: the
filter asks, for each name, for one of the values added under it. -/
abbrev Args := List (String × String)

/-- Go `filters.NewArgs()`. -/
def Args.NewArgs : Args := []

/-- Go `filter.Add(name, value)`. -/
def Args.Add (filter : Args) (name value : String) : Args := filter ++ [(name, value)]

/-- Go `filter.Get(name)`: the values held under `name`.  The library keeps a set of
values per name, so a value added twice is held once, and it returns them in no
specified order: the list below is one of the orders, and only its members matter. -/
def Args.Get (filter : Args) (name : String) : List String :=
  ((filter.filter (fun a => a.1 = name)).map Prod.snd).dedup

/-- Docker `types.ContainerListOptions`; every field but `Filters` keeps its zero value. -/
structure ContainerListOptions where
  All : Bool
  Filters : Args
  deriving DecidableEq, Repr

/-- Docker `container.ContainerCreateCreatedBody`, the answer to a create call. -/
structure ContainerCreateResponse where
  ID : String
  Warnings : List String
  deriving DecidableEq, Repr

/-- The stream `ImagePull` returns: `reader i` is the error of the `i`-th `Read` call
(counting from 0), `none` when that read succeeds.  The bytes read are never looked at. -/
abbrev Reader := Nat → Option String

/-- The runtime collaborator, `client.Client`.  Each method is called at most once in a
run of the plugin's methods, so a function of the arguments covers a stateful daemon. -/
structure Client where
  ImagePull : String → Except String Reader
  ContainerCreate : Config → Option HostConfig → Option NetworkingConfig → String →
    Except String ContainerCreateResponse
  ContainerRemove : String → ContainerRemoveOptions → Option String
  ContainerList : ContainerListOptions → Except String (List Container)

/-- One call on the collaborator, with its arguments; `Read err` is one `Read` on the
pull stream, with the error it returned. -/
inductive Call where
  | ImagePull (image : String)
  | Read (err : Option String)
  | ContainerCreate (config : Config) (hostConfig : Option HostConfig)
      (networkingConfig : Option NetworkingConfig) (containerName : String)
  | ContainerRemove (id : String) (options : ContainerRemoveOptions)
  | ContainerList (options : ContainerListOptions)
  deriving DecidableEq, Repr

/-- A run of a method: the collaborator calls it made, in order, and what it returned:
`some (.ok a)` for `(a, nil)`, `some (.error msg)` for `(nil, err)`, and `none` when the
read loop of `Provision` is still running after the given number of reads. -/
structure Run (α : Type) where
  calls : List Call
  result : Option (Except String α)

/-- Go `dockerInstancePlugin`. -/
structure dockerInstancePlugin where
  client : Client
  namespaceTags : GoMap String

/-! ## Request translator -/

/-- Lines 148-162 of `Provision`: the network attachment for a logical ID.  A missing
`NetworkName` becomes "bridge", a nil `NetworkingConfig` and a nil `EndpointsConfig` are
created, a missing or nil entry for the network becomes a zero `EndpointSettings`, and the
logical ID is written to the entry's `IPAddress`. -/
def Provision.network (logicalID : Option String) (request : CreateInstanceRequest) :
    CreateInstanceRequest :=
  match logicalID with
  | none => request
  | some lid =>
    let networkName := if request.NetworkName = "" then "bridge" else request.NetworkName
    let networkingConfig : NetworkingConfig :=
      match request.NetworkingConfig with
      | none => { EndpointsConfig := none }
      | some nc => nc
    let endpointsConfig : List (String × Option EndpointSettings) :=
      match networkingConfig.EndpointsConfig with
      | none => []
      | some es => es
    let endpoint : EndpointSettings :=
      match GoMap.lookupE endpointsConfig networkName with
      | some (some eps) => eps
      | _ => EndpointSettings.zero
    let endpointsConfig :=
      GoMap.setE endpointsConfig networkName (some { endpoint with IPAddress := lid })
    { request with
      NetworkName := networkName
      NetworkingConfig := some { EndpointsConfig := some endpointsConfig } }

/-- Lines 175-183 of `Provision`: the loop reading the pull stream, from read `i` on,
for at most `fuel` reads.  It gives the reads made and `some (.ok ())` when a read
reported "EOF" (the `break`), `some (.error err)` when a read reported another error
(the `return nil, err`), `none` when `fuel` reads all succeeded. -/
def Provision.drain (reader : Reader) : Nat → Nat → List Call × Option (Except String Unit)
  | 0, _ => ([], none)
  | fuel + 1, i =>
    match reader i with
    | none =>
      let rest := Provision.drain reader fuel (i + 1)
      (Call.Read none :: rest.1, rest.2)
    | some err =>
      if err = "EOF" then ([Call.Read (some err)], some (.ok ()))
      else ([Call.Read (some err)], some (.error err))

/-- Go `dockerInstancePlugin.Provision`.  `unmarshal` is `json.Unmarshal` into a fresh
`CreateInstanceRequest`; `fuel` bounds the reads of the pull stream. -/
def Provision (unmarshal : String → Except String CreateInstanceRequest)
    (p : dockerInstancePlugin) (fuel : Nat) (spec : Spec) : Run String :=
  match spec.Properties with
  | none => { calls := [], result := some (.error "Properties must be set") }
  | some properties =>
    match unmarshal properties with
    | .error err => { calls := [], result := some (.error ("invalid input formatting: " ++ err)) }
    | .ok request =>
      match request.Config with
      | none => { calls := [], result := some (.error "Config should be set") }
      | some config =>
        let allTags := (mergeTags [spec.Tags, request.Tags]).tags
        let config := { config with Labels := allTags }
        let request := Provision.network spec.LogicalID { request with Config := some config }
        let image := config.Image
        if image = "" then
          { calls := [], result := some (.error "A Docker image should be specified") }
        else
          match p.client.ImagePull image with
          | .error err => { calls := [Call.ImagePull image], result := some (.error err) }
          | .ok reader =>
            match Provision.drain reader fuel 0 with
            | (reads, none) => { calls := Call.ImagePull image :: reads, result := none }
            | (reads, some (.error err)) =>
              { calls := Call.ImagePull image :: reads, result := some (.error err) }
            | (reads, some (.ok _)) =>
              let containerName := ""
              let calls := Call.ImagePull image :: reads ++
                [Call.ContainerCreate config request.HostConfig request.NetworkingConfig
                  containerName]
              match p.client.ContainerCreate config request.HostConfig request.NetworkingConfig
                  containerName with
              | .error err => { calls := calls, result := some (.error err) }
              | .ok r =>
                if r.ID = "" then
                  { calls := calls, result := some (.error "Unexpected Docker API response") }
                else
                  { calls := calls, result := some (.ok r.ID) }

/-- Go `dockerInstancePlugin.Destroy`. -/
def Destroy (p : dockerInstancePlugin) (id : String) : Run Unit :=
  let options : ContainerRemoveOptions :=
    { Force := true, RemoveVolumes := true, RemoveLinks := false }
  match p.client.ContainerRemove id options with
  | some err => { calls := [Call.ContainerRemove id options], result := some (.error err) }
  | none => { calls := [Call.ContainerRemove id options], result := some (.ok ()) }

/-! ## Filter and description builder -/

/-- Go `fmt.Sprintf("%s=%s", key, value)`. -/
def labelClause (key value : String) : String := key ++ "=" ++ value

/-- Go `describeGroupRequest(namespaceTags, tags)`. -/
def describeGroupRequest (namespaceTags tags : GoMap String) : ContainerListOptions :=
  let filter := Args.NewArgs
  let filter := filter.Add "status" "created"
  let filter := filter.Add "status" "running"
  let merged := mergeTags [tags, namespaceTags]
  let filter := merged.keys.foldl
    (fun filter key => filter.Add "label" (labelClause key (merged.tags.get key))) filter
  { All := false, Filters := filter }

/-- The body of the loop of `describeInstances` (lines 238-260), for one container record. -/
def describeInstances.body (descriptions : List Description) (container : Container) :
    List Description :=
  let tags : List (String × String) :=
    match container.Labels with
    | none => []
    | some labels => labels.foldl (fun tags kv => GoMap.setE tags kv.1 kv.2) []
  match container.Networks with
  | some ns =>
    match ns with
    | [] => descriptions
    | (_, eps) :: _ =>
      descriptions ++ [{ ID := container.ID, LogicalID := some eps.IPAddress, Tags := some tags }]
  | none => descriptions ++ [{ ID := container.ID, LogicalID := none, Tags := some tags }]

/-- Go `dockerInstancePlugin.describeInstances`. -/
def describeInstances (p : dockerInstancePlugin) (tags : GoMap String) :
    Run (List Description) :=
  let options := describeGroupRequest p.namespaceTags tags
  match p.client.ContainerList options with
  | .error err => { calls := [Call.ContainerList options], result := some (.error err) }
  | .ok containers =>
    { calls := [Call.ContainerList options]
      result := some (.ok (containers.foldl describeInstances.body [])) }

/-- Go `dockerInstancePlugin.DescribeInstances`. -/
def DescribeInstances (p : dockerInstancePlugin) (tags : GoMap String) :
    Run (List Description) :=
  describeInstances p tags

/-! ## Notions used in the statements -/

/-- The endpoint map of a networking configuration; nil when the configuration is nil. -/
def endpointsOf (networkingConfig : Option NetworkingConfig) : GoMap (Option EndpointSettings) :=
  match networkingConfig with
  | none => none
  | some nc => nc.EndpointsConfig

/-- The network that receives the logical ID: `NetworkName`, or "bridge" when it is empty. -/
def targetNetwork (request : CreateInstanceRequest) : String :=
  if request.NetworkName = "" then "bridge" else request.NetworkName

/-! ## Sample inputs -/

namespace Sample

/-- A decoded request with tags, stale labels in its `Config`, and two networks. -/
def request : CreateInstanceRequest :=
  { Tags := some [("env", "prod"), ("tier", "web")]
    Config := some { Image := "docker/dind", Env := ["var1=value1"], Labels := some [("stale", "1")] }
    HostConfig := some { NetworkMode := "default", Privileged := true }
    NetworkingConfig := some { EndpointsConfig := some [
      ("backend", some { IPAddress := "172.18.0.9", Gateway := "172.18.0.1",
                         MacAddress := "02:42:ac:12:00:09", Aliases := ["db"] }),
      ("bridge", some { IPAddress := "", Gateway := "172.17.0.1",
                        MacAddress := "", Aliases := [] })] }
    NetworkName := "" }

/-- The same request without a networking configuration. -/
def requestNoNetwork : CreateInstanceRequest := { request with NetworkingConfig := none }

/-- The same request with an empty image name. -/
def requestNoImage : CreateInstanceRequest :=
  { request with Config := some { Image := "", Env := [], Labels := none } }

/-- A spec with caller-level tags and a logical ID. -/
def spec : Spec :=
  { Properties := some "raw properties"
    Tags := some [("env", "dev"), ("owner", "ops")]
    Init := ""
    LogicalID := some "10.0.0.5"
    Attachments := [] }

/-- A pull stream whose third read reports the end of the stream. -/
def reader : Reader := fun i => if i < 2 then none else some "EOF"

/-- A collaborator whose calls all succeed; a create call answers with the identity `id`,
a list call with `containers`. -/
def client (id : String) (containers : List Container) : Client :=
  { ImagePull := fun _ => .ok reader
    ContainerCreate := fun _ _ _ _ => .ok { ID := id, Warnings := [] }
    ContainerRemove := fun _ _ => none
    ContainerList := fun _ => .ok containers }

/-- A plugin on that collaborator. -/
def plugin (id : String) (containers : List Container) : dockerInstancePlugin :=
  { client := client id containers, namespaceTags := some [("env", "staging"), ("team", "x")] }

/-- The same request without a `Config`. -/
def requestNoConfig : CreateInstanceRequest := { request with Config := none }

/-- A pull stream whose second read fails with an error that is not the end of the stream. -/
def brokenReader : Reader := fun i => if i < 1 then none else some "connection reset by peer"

/-- A plugin on a collaborator whose pull stream breaks. -/
def brokenPlugin : dockerInstancePlugin :=
  { client := { client "c0ffee" [] with ImagePull := fun _ => .ok brokenReader }
    namespaceTags := none }

end Sample

/-! ## Lemmas on maps -/

namespace GoMap

variable {V : Type}

theorem lookupE_isSome_iff (es : List (String × V)) (k : String) :
    (lookupE es k).isSome = true ↔ k ∈ es.map Prod.fst := by
  induction es with
  | nil => simp [lookupE]
  | cons e es ih =>
    obtain ⟨k', v⟩ := e
    by_cases h : k' = k
    · simp [lookupE, h]
    · have h' : ¬ k = k' := fun e => h e.symm
      simp [lookupE, h, h', ih]

theorem lookupE_eq_none_iff (es : List (String × V)) (k : String) :
    lookupE es k = none ↔ k ∉ es.map Prod.fst := by
  rw [← lookupE_isSome_iff]
  cases lookupE es k <;> simp

theorem lookupE_setE (es : List (String × V)) (k : String) (v : V) (k' : String) :
    lookupE (setE es k v) k' = if k = k' then some v else lookupE es k' := by
  induction es with
  | nil => simp [setE, lookupE]
  | cons e es ih =>
    obtain ⟨k₀, v₀⟩ := e
    by_cases h : k₀ = k
    · subst h
      by_cases h' : k₀ = k' <;> simp [setE, lookupE, h']
    · by_cases h' : k = k'
      · subst h'
        simp [setE, lookupE, h, ih]
      · by_cases h'' : k₀ = k'
        · subst h''
          simp [setE, lookupE, h, h']
        · simp [setE, lookupE, h, h', h'', ih]

theorem keys_setE_of_mem (es : List (String × V)) (k : String) (v : V)
    (h : k ∈ es.map Prod.fst) : (setE es k v).map Prod.fst = es.map Prod.fst := by
  induction es with
  | nil => simp at h
  | cons e es ih =>
    obtain ⟨k₀, v₀⟩ := e
    by_cases h₀ : k₀ = k
    · simp [setE, h₀]
    · have hk : k ∈ es.map Prod.fst := by
        simp only [List.map_cons, List.mem_cons] at h
        rcases h with h | h
        · exact absurd h.symm h₀
        · exact h
      simp [setE, h₀, ih hk]

theorem keys_setE_of_not_mem (es : List (String × V)) (k : String) (v : V)
    (h : k ∉ es.map Prod.fst) : (setE es k v).map Prod.fst = es.map Prod.fst ++ [k] := by
  induction es with
  | nil => simp [setE]
  | cons e es ih =>
    obtain ⟨k₀, v₀⟩ := e
    simp only [List.map_cons, List.mem_cons, not_or] at h
    have h₀ : ¬ k₀ = k := fun e => h.1 e.symm
    simp [setE, h₀, ih h.2]

theorem setE_of_not_mem (es : List (String × V)) (k : String) (v : V)
    (h : k ∉ es.map Prod.fst) : setE es k v = es ++ [(k, v)] := by
  induction es with
  | nil => simp [setE]
  | cons e es ih =>
    obtain ⟨k₀, v₀⟩ := e
    simp only [List.map_cons, List.mem_cons, not_or] at h
    have h₀ : ¬ k₀ = k := fun e => h.1 e.symm
    simp [setE, h₀, ih h.2]

theorem mem_keys_setE (es : List (String × V)) (k : String) (v : V) (k' : String) :
    k' ∈ (setE es k v).map Prod.fst ↔ k' = k ∨ k' ∈ es.map Prod.fst := by
  by_cases h : k ∈ es.map Prod.fst
  · rw [keys_setE_of_mem es k v h]
    constructor
    · exact Or.inr
    · rintro (rfl | h')
      · exact h
      · exact h'
  · rw [keys_setE_of_not_mem es k v h]
    simp [or_comm]

end GoMap

/-! ## Lemmas on the tag reconciler -/

theorem strLE_iff (a b : String) : strLE a b ↔ a ≤ b :=
  String.le_iff_toList_le.symm

theorem sortStrings_perm (xs : List String) : (sortStrings xs).Perm xs :=
  List.perm_insertionSort strLE xs

theorem sortStrings_sorted (xs : List String) : List.Sorted (· ≤ ·) (sortStrings xs) :=
  (List.sorted_insertionSort strLE xs).imp (fun {a b} h => (strLE_iff a b).mp h)

theorem mem_sortStrings (xs : List String) (k : String) : k ∈ sortStrings xs ↔ k ∈ xs :=
  (sortStrings_perm xs).mem_iff

theorem sortStrings_strict (xs : List String) (h : xs.Nodup) :
    List.Sorted (· < ·) (sortStrings xs) :=
  (sortStrings_sorted xs).lt_of_le ((sortStrings_perm xs).nodup_iff.mpr h)

theorem mergeTags.step_tags (st : MergeState) (kv : String × String) :
    (mergeTags.step st kv).tags = GoMap.setE st.tags kv.1 kv.2 := by
  unfold mergeTags.step
  split <;> rfl

theorem mergeTags.step_inv (st : MergeState) (kv : String × String) (h : st.Inv) :
    (mergeTags.step st kv).Inv := by
  obtain ⟨hk, hn⟩ := h
  by_cases hm : kv.1 ∈ st.tags.map Prod.fst
  · have hs : (GoMap.lookupE st.tags kv.1).isSome = true := (GoMap.lookupE_isSome_iff _ _).mpr hm
    unfold mergeTags.step
    rw [if_pos hs]
    exact ⟨by rw [GoMap.keys_setE_of_mem _ _ _ hm]; exact hk, hn⟩
  · have hs : ¬ (GoMap.lookupE st.tags kv.1).isSome = true :=
      fun h => hm ((GoMap.lookupE_isSome_iff _ _).mp h)
    unfold mergeTags.step
    rw [if_neg hs]
    refine ⟨by rw [GoMap.keys_setE_of_not_mem _ _ _ hm, hk], ?_⟩
    show (st.keys ++ [kv.1]).Nodup
    rw [hk] at hn ⊢
    exact List.Nodup.append hn (List.nodup_singleton _) (by simpa using hm)

theorem mergeTags.foldl_step_inv (es : List (String × String)) (st : MergeState) (h : st.Inv) :
    (es.foldl mergeTags.step st).Inv := by
  induction es generalizing st with
  | nil => exact h
  | cons e es ih => exact ih _ (mergeTags.step_inv st e h)

theorem mergeTags.loop_nil (st : MergeState) : mergeTags.loop st [] = st := rfl

theorem mergeTags.loop_cons (st : MergeState) (m : GoMap String) (ms : List (GoMap String)) :
    mergeTags.loop st (m :: ms) = mergeTags.loop (m.entries.foldl mergeTags.step st) ms := rfl

theorem mergeTags.loop_append (st : MergeState) (ms ms' : List (GoMap String)) :
    mergeTags.loop st (ms ++ ms') = mergeTags.loop (mergeTags.loop st ms) ms' := by
  simp [mergeTags.loop, List.foldl_append]

theorem mergeTags.loop_inv (ms : List (GoMap String)) (st : MergeState) (h : st.Inv) :
    (mergeTags.loop st ms).Inv := by
  induction ms generalizing st with
  | nil => exact h
  | cons m ms ih =>
    rw [mergeTags.loop_cons]
    exact ih _ (mergeTags.foldl_step_inv _ st h)

theorem MergeState.init_inv : MergeState.init.Inv := ⟨rfl, List.nodup_nil⟩

theorem mergeTags_keys_eq (tagMaps : List (GoMap String)) :
    (mergeTags tagMaps).keys = sortStrings (mergeTags.loop MergeState.init tagMaps).keys := rfl

theorem mergeTags_tags_eq (tagMaps : List (GoMap String)) :
    (mergeTags tagMaps).tags = some (mergeTags.loop MergeState.init tagMaps).tags := rfl

/-- A key that a tag map does not hold keeps its value through the inner loop. -/
theorem mergeTags.foldl_step_lookup_of_not_mem (es : List (String × String)) (st : MergeState)
    (k : String) (h : k ∉ es.map Prod.fst) :
    GoMap.lookupE (es.foldl mergeTags.step st).tags k = GoMap.lookupE st.tags k := by
  induction es generalizing st with
  | nil => rfl
  | cons e es ih =>
    simp only [List.map_cons, List.mem_cons, not_or] at h
    rw [List.foldl_cons, ih _ h.2, mergeTags.step_tags, GoMap.lookupE_setE]
    have : ¬ e.1 = k := fun e' => h.1 e'.symm
    simp [this]

/-- A key that a well-formed tag map holds gets that map's value in the inner loop. -/
theorem mergeTags.foldl_step_lookup_of_mem (es : List (String × String)) (st : MergeState)
    (k : String) (hwf : (es.map Prod.fst).Nodup) (h : k ∈ es.map Prod.fst) :
    GoMap.lookupE (es.foldl mergeTags.step st).tags k = GoMap.lookupE es k := by
  induction es generalizing st with
  | nil => simp at h
  | cons e es ih =>
    obtain ⟨k₀, v₀⟩ := e
    simp only [List.map_cons, List.nodup_cons] at hwf
    by_cases hk : k₀ = k
    · subst hk
      rw [List.foldl_cons, mergeTags.foldl_step_lookup_of_not_mem _ _ _ hwf.1, mergeTags.step_tags,
        GoMap.lookupE_setE]
      simp [GoMap.lookupE]
    · have hm : k ∈ es.map Prod.fst := by
        simp only [List.map_cons, List.mem_cons] at h
        rcases h with h | h
        · exact absurd h.symm hk
        · exact h
      rw [List.foldl_cons, ih _ hwf.2 hm]
      simp [GoMap.lookupE, hk]

/-- A key that none of the tag maps holds keeps its value through both loops. -/
theorem mergeTags.loop_lookup_of_not_mem (ms : List (GoMap String)) (st : MergeState)
    (k : String) (h : ∀ m ∈ ms, k ∉ GoMap.keys m) :
    GoMap.lookupE (mergeTags.loop st ms).tags k = GoMap.lookupE st.tags k := by
  induction ms generalizing st with
  | nil => rfl
  | cons m ms ih =>
    rw [mergeTags.loop_cons, ih _ (fun m' hm' => h m' (List.mem_cons_of_mem _ hm'))]
    exact mergeTags.foldl_step_lookup_of_not_mem _ _ _ (h m (List.mem_cons_self _ _))

theorem mergeTags.foldl_step_mem_keys (es : List (String × String)) (st : MergeState)
    (k : String) :
    k ∈ (es.foldl mergeTags.step st).tags.map Prod.fst
      ↔ k ∈ st.tags.map Prod.fst ∨ k ∈ es.map Prod.fst := by
  induction es generalizing st with
  | nil => simp
  | cons e es ih =>
    rw [List.foldl_cons, ih, mergeTags.step_tags, GoMap.mem_keys_setE]
    simp only [List.map_cons, List.mem_cons]
    tauto

/-- The keys of the merged map are the keys it started with and the keys of the tag maps. -/
theorem mergeTags.loop_mem_keys (ms : List (GoMap String)) (st : MergeState) (k : String) :
    k ∈ (mergeTags.loop st ms).tags.map Prod.fst
      ↔ k ∈ st.tags.map Prod.fst ∨ ∃ m ∈ ms, k ∈ GoMap.keys m := by
  induction ms generalizing st with
  | nil => simp [mergeTags.loop_nil]
  | cons m ms ih =>
    rw [mergeTags.loop_cons, ih, mergeTags.foldl_step_mem_keys]
    simp only [List.mem_cons, exists_eq_or_imp, GoMap.keys]
    tauto

theorem mergeTags_mem_tags_keys (tagMaps : List (GoMap String)) (k : String) :
    k ∈ GoMap.keys (mergeTags tagMaps).tags ↔ ∃ m ∈ tagMaps, k ∈ GoMap.keys m := by
  rw [mergeTags_tags_eq]
  show k ∈ (mergeTags.loop MergeState.init tagMaps).tags.map Prod.fst ↔ _
  rw [mergeTags.loop_mem_keys]
  simp [MergeState.init]

theorem mergeTags_mem_keys (tagMaps : List (GoMap String)) (k : String) :
    k ∈ (mergeTags tagMaps).keys ↔ ∃ m ∈ tagMaps, k ∈ GoMap.keys m := by
  rw [mergeTags_keys_eq, mem_sortStrings,
    (mergeTags.loop_inv tagMaps _ MergeState.init_inv).1, mergeTags.loop_mem_keys]
  simp [MergeState.init]

/-- The merged map gives a key the value of the last tag map that holds it. -/
theorem mergeTags_lookup_last (pre post : List (GoMap String)) (m : GoMap String)
    (k : String) (hwf : m.WF) (hk : k ∈ m.keys) (hpost : ∀ m' ∈ post, k ∉ GoMap.keys m') :
    (mergeTags (pre ++ m :: post)).tags.lookup k = m.lookup k := by
  rw [mergeTags_tags_eq, mergeTags.loop_append, mergeTags.loop_cons]
  show GoMap.lookupE (mergeTags.loop _ post).tags k = GoMap.lookupE m.entries k
  rw [mergeTags.loop_lookup_of_not_mem post _ k hpost]
  exact mergeTags.foldl_step_lookup_of_mem _ _ k hwf hk

theorem mergeTags_keys_sorted_lt (tagMaps : List (GoMap String)) :
    List.Sorted (· < ·) (mergeTags tagMaps).keys := by
  rw [mergeTags_keys_eq]
  exact sortStrings_strict _ (mergeTags.loop_inv tagMaps _ MergeState.init_inv).2

/-! ## Properties of the tag reconciler -/

/-- C1: for every sequence of tag maps, nil and empty maps included, the key list that
`mergeTags` returns is in strictly ascending order, and so holds no key twice. -/
theorem mergeTags_keys_strictly_ascending (tagMaps : List (GoMap String)) :
    List.Sorted (· < ·) (mergeTags tagMaps).keys ∧ (mergeTags tagMaps).keys.Nodup := by
  have hs := mergeTags_keys_sorted_lt tagMaps
  exact ⟨hs, hs.nodup⟩

/-- C2: a key of some tag map gets, in the merged map, the value it has in the last tag
map of the sequence that holds it. -/
theorem mergeTags_last_source_wins (pre post : List (GoMap String)) (m : GoMap String)
    (k : String) (hwf : m.WF) (hk : k ∈ m.keys) (hpost : ∀ m' ∈ post, k ∉ GoMap.keys m') :
    (mergeTags (pre ++ m :: post)).tags.lookup k = m.lookup k ∧ (m.lookup k).isSome = true :=
  ⟨mergeTags_lookup_last pre post m k hwf hk hpost, (GoMap.lookupE_isSome_iff _ _).mpr hk⟩

/-- C2 at two sources: B overrides A on the shared key "b", and "a", held by A only,
keeps the value of A. -/
theorem mergeTags_last_source_wins_witness :
    GoMap.WF (some [("b", "3")]) ∧ "b" ∈ GoMap.keys (some [("b", "3")]) ∧
    ((mergeTags ([some [("a", "1"), ("b", "2")]] ++ some [("b", "3")] :: [])).tags.lookup "b"
        = GoMap.lookup (some [("b", "3")]) "b"
      ∧ (GoMap.lookup (some [("b", "3")]) "b").isSome = true)
    ∧ (mergeTags [some [("a", "1"), ("b", "2")], some [("b", "3")]]).tags
        = some [("a", "1"), ("b", "3")] :=
  ⟨by decide, by decide,
    mergeTags_last_source_wins [some [("a", "1"), ("b", "2")]] [] (some [("b", "3")]) "b"
      (by decide) (by decide) (by simp), by decide⟩


/-! ## Lemmas on the request translator -/

/-- The read loop calls nothing but `Read`. -/
theorem Provision.drain_calls (reader : Reader) (fuel i : Nat) (c : Call)
    (h : c ∈ (Provision.drain reader fuel i).1) : ∃ err, c = Call.Read err := by
  induction fuel generalizing i with
  | zero => simp [Provision.drain] at h
  | succ fuel ih =>
    unfold Provision.drain at h
    cases hr : reader i with
    | none =>
      simp only [hr, List.mem_cons] at h
      rcases h with h | h
      · exact ⟨none, h⟩
      · exact ih _ h
    | some err =>
      simp only [hr] at h
      by_cases he : err = "EOF"
      · simp only [he, if_true, List.mem_singleton] at h
        exact ⟨_, h⟩
      · simp only [he, if_false, List.mem_singleton] at h
        exact ⟨_, h⟩

/-- With enough fuel the read loop reaches the read that reports "EOF" and stops there. -/
theorem Provision.drain_eof (reader : Reader) (n : Nat) :
    ∀ (fuel i : Nat), reader (i + n) = some "EOF" → (∀ j, j < n → reader (i + j) = none) →
      n < fuel →
      Provision.drain reader fuel i
        = (List.replicate n (Call.Read none) ++ [Call.Read (some "EOF")], some (.ok ())) := by
  induction n with
  | zero =>
    intro fuel i heof _ hfuel
    obtain ⟨fuel, rfl⟩ : ∃ f, fuel = f + 1 := ⟨fuel - 1, by omega⟩
    simp only [Nat.add_zero] at heof
    simp [Provision.drain, heof]
  | succ n ih =>
    intro fuel i heof hok hfuel
    obtain ⟨fuel, rfl⟩ : ∃ f, fuel = f + 1 := ⟨fuel - 1, by omega⟩
    have h0 : reader i = none := by simpa using hok 0 (by omega)
    have hrest := ih fuel (i + 1) (by rw [← heof]; congr 1; omega)
      (fun j hj => by rw [← hok (j + 1) (by omega)]; congr 1; omega) (by omega)
    simp [Provision.drain, h0, hrest, List.replicate_succ]

theorem Provision.network_hostConfig (logicalID : Option String)
    (request : CreateInstanceRequest) :
    (Provision.network logicalID request).HostConfig = request.HostConfig := by
  cases logicalID <;> rfl

theorem Provision.network_config (logicalID : Option String) (request : CreateInstanceRequest)
    (config : Option Config) :
    (Provision.network logicalID { request with Config := config }).NetworkingConfig
      = (Provision.network logicalID request).NetworkingConfig := by
  cases logicalID <;> rfl

/-- A create call in a run of `Provision` comes after all the checks, a successful pull and
a read loop that ended on "EOF", and carries the enriched request. -/
theorem Provision.create_mem (unmarshal : String → Except String CreateInstanceRequest)
    (p : dockerInstancePlugin) (fuel : Nat) (spec : Spec) (cfg : Config)
    (hc : Option HostConfig) (nc : Option NetworkingConfig) (name : String)
    (hcall : Call.ContainerCreate cfg hc nc name ∈ (Provision unmarshal p fuel spec).calls) :
    ∃ properties request config reader reads,
      spec.Properties = some properties ∧ unmarshal properties = .ok request ∧
      request.Config = some config ∧ config.Image ≠ "" ∧
      p.client.ImagePull config.Image = .ok reader ∧
      Provision.drain reader fuel 0 = (reads, some (.ok ())) ∧
      cfg = { config with Labels := (mergeTags [spec.Tags, request.Tags]).tags } ∧
      hc = request.HostConfig ∧
      nc = (Provision.network spec.LogicalID request).NetworkingConfig ∧ name = "" := by
  unfold Provision at hcall
  cases hp : spec.Properties with
  | none => simp [hp] at hcall
  | some properties =>
    cases hu : unmarshal properties with
    | error err => simp [hp, hu] at hcall
    | ok request =>
      cases hcfg : request.Config with
      | none => simp [hp, hu, hcfg] at hcall
      | some config =>
        simp only [hp, hu, hcfg] at hcall
        by_cases himg : config.Image = ""
        · simp [himg] at hcall
        · simp only [himg, if_false] at hcall
          cases hpull : p.client.ImagePull config.Image with
          | error err => simp [hpull] at hcall
          | ok reader =>
            simp only [hpull] at hcall
            have hreads := Provision.drain_calls reader fuel 0 (Call.ContainerCreate cfg hc nc name)
            rcases hd : Provision.drain reader fuel 0 with ⟨reads, _ | (_ | _)⟩
            · rw [hd] at hcall hreads
              simp only [List.mem_cons, reduceCtorEq, false_or] at hcall
              obtain ⟨err, he⟩ := hreads hcall
              cases he
            · rw [hd] at hcall hreads
              simp only [List.mem_cons, reduceCtorEq, false_or] at hcall
              obtain ⟨err, he⟩ := hreads hcall
              cases he
            · rw [hd] at hcall hreads
              have hmem : Call.ContainerCreate cfg hc nc name ∈
                  Call.ImagePull config.Image :: reads ++
                    [Call.ContainerCreate
                      { config with Labels := (mergeTags [spec.Tags, request.Tags]).tags }
                      request.HostConfig
                      (Provision.network spec.LogicalID request).NetworkingConfig ""] := by
                simp only [Provision.network_hostConfig, Provision.network_config] at hcall
                split at hcall
                · exact hcall
                · split at hcall <;> exact hcall
              simp only [List.cons_append, List.mem_cons, reduceCtorEq, false_or, List.mem_append,
                List.mem_singleton, List.not_mem_nil, or_false] at hmem
              rcases hmem with hmem | hmem
              · obtain ⟨err, he⟩ := hreads hmem
                cases he
              · injection hmem with h1 h2 h3 h4
                exact ⟨properties, request, config, reader, reads, rfl, hu, hcfg, himg, hpull,
                  hd, h1, h2, h3, h4⟩

/-- The run of `Provision` once the checks have passed, the pull has succeeded and the read
loop has ended on "EOF": the calls made, and the result, which is decided by the answer to
the create call. -/
theorem Provision.of_drained (unmarshal : String → Except String CreateInstanceRequest)
    (p : dockerInstancePlugin) (fuel : Nat) (spec : Spec) (properties : String)
    (request : CreateInstanceRequest) (config : Config) (reader : Reader) (reads : List Call)
    (hp : spec.Properties = some properties) (hu : unmarshal properties = .ok request)
    (hcfg : request.Config = some config) (himg : config.Image ≠ "")
    (hpull : p.client.ImagePull config.Image = .ok reader)
    (hd : Provision.drain reader fuel 0 = (reads, some (.ok ()))) :
    (Provision unmarshal p fuel spec).calls
        = Call.ImagePull config.Image :: reads ++
            [Call.ContainerCreate
              { config with Labels := (mergeTags [spec.Tags, request.Tags]).tags }
              request.HostConfig (Provision.network spec.LogicalID request).NetworkingConfig ""]
    ∧ (Provision unmarshal p fuel spec).result
        = match p.client.ContainerCreate
              { config with Labels := (mergeTags [spec.Tags, request.Tags]).tags }
              request.HostConfig (Provision.network spec.LogicalID request).NetworkingConfig ""
            with
          | .error err => some (.error err)
          | .ok r => if r.ID = "" then some (.error "Unexpected Docker API response")
                     else some (.ok r.ID) := by
  unfold Provision
  simp only [hp, hu, hcfg, himg, if_false, hpull, hd, Provision.network_hostConfig,
    Provision.network_config]
  split
  · exact ⟨rfl, rfl⟩
  · split <;> exact ⟨rfl, rfl⟩


/-- With a logical ID, the endpoint map handed on is the decoded one with the entry of the
target network written: the entry it had, or a zero entry, with the logical ID as address. -/
theorem Provision.network_endpoints (lid : String) (request : CreateInstanceRequest) :
    endpointsOf (Provision.network (some lid) request).NetworkingConfig
      = some (GoMap.setE (endpointsOf request.NetworkingConfig).entries (targetNetwork request)
          (some { (match GoMap.lookupE (endpointsOf request.NetworkingConfig).entries
                      (targetNetwork request) with
                    | some (some eps) => eps
                    | _ => EndpointSettings.zero) with IPAddress := lid })) := by
  cases hnc : request.NetworkingConfig with
  | none => simp only [Provision.network, hnc, endpointsOf, GoMap.entries, targetNetwork]
  | some c =>
    cases hec : c.EndpointsConfig with
    | none => simp only [Provision.network, hnc, hec, endpointsOf, GoMap.entries, targetNetwork]
    | some es => simp only [Provision.network, hnc, hec, endpointsOf, GoMap.entries, targetNetwork]


/-! ## Properties of the request translator -/

/-- C3: when the spec has no `Properties`, `Provision` returns an error and calls the
collaborator not at all, whatever the other fields of the spec are. -/
theorem Provision_properties_absent (unmarshal : String → Except String CreateInstanceRequest)
    (p : dockerInstancePlugin) (fuel : Nat) (spec : Spec) (h : spec.Properties = none) :
    (Provision unmarshal p fuel spec).calls = [] ∧
    (Provision unmarshal p fuel spec).result = some (.error "Properties must be set") := by
  unfold Provision
  simp only [h]
  exact ⟨trivial, trivial⟩

/-- C3 at the sample spec with its properties removed. -/
theorem Provision_properties_absent_witness :
    ({ Sample.spec with Properties := none } : Spec).Properties = none ∧
    (Provision (fun _ => .ok Sample.request) (Sample.plugin "c0ffee" []) 5
        { Sample.spec with Properties := none }).calls = [] ∧
    (Provision (fun _ => .ok Sample.request) (Sample.plugin "c0ffee" []) 5
        { Sample.spec with Properties := none }).result
      = some (.error "Properties must be set") :=
  ⟨rfl, Provision_properties_absent (fun _ => .ok Sample.request) (Sample.plugin "c0ffee" []) 5
    { Sample.spec with Properties := none } rfl⟩

/-- C4: the label set of the container config passed to the create call is the merged map
of `mergeTags(spec.Tags, request.Tags)`: a request tag overrides a spec tag of the same
key, a spec tag with no request tag of its key is kept, and every label comes from one of
the two tag maps, so that the labels of the decoded `Config` are gone. -/
theorem Provision_labels (unmarshal : String → Except String CreateInstanceRequest)
    (p : dockerInstancePlugin) (fuel : Nat) (spec : Spec) (properties : String)
    (request : CreateInstanceRequest) (cfg : Config) (hc : Option HostConfig)
    (nc : Option NetworkingConfig) (name : String)
    (hp : spec.Properties = some properties) (hu : unmarshal properties = .ok request)
    (hcall : Call.ContainerCreate cfg hc nc name ∈ (Provision unmarshal p fuel spec).calls) :
    cfg.Labels = (mergeTags [spec.Tags, request.Tags]).tags ∧
    (∀ k, request.Tags.WF → k ∈ request.Tags.keys →
      cfg.Labels.lookup k = request.Tags.lookup k) ∧
    (∀ k, spec.Tags.WF → k ∈ spec.Tags.keys → k ∉ request.Tags.keys →
      cfg.Labels.lookup k = spec.Tags.lookup k) ∧
    (∀ k, k ∈ cfg.Labels.keys → k ∈ spec.Tags.keys ∨ k ∈ request.Tags.keys) := by
  obtain ⟨properties', request', config, reader, reads, hp', hu', -, -, -, -, hcfg, -, -, -⟩ :=
    Provision.create_mem unmarshal p fuel spec cfg hc nc name hcall
  rw [hp] at hp'
  cases hp'
  rw [hu] at hu'
  cases hu'
  have hl : cfg.Labels = (mergeTags [spec.Tags, request.Tags]).tags := by rw [hcfg]
  refine ⟨hl, ?_, ?_, ?_⟩
  · intro k hwf hk
    rw [hl]
    exact mergeTags_lookup_last [spec.Tags] [] request.Tags k hwf hk (by simp)
  · intro k hwf hk hnk
    rw [hl]
    exact mergeTags_lookup_last [] [request.Tags] spec.Tags k hwf hk (by simpa using hnk)
  · intro k hk
    rw [hl, mergeTags_mem_tags_keys] at hk
    simpa using hk


/-- C4 at the sample spec: the create call carries the merged tags as labels, with the
request's value for the shared key "env", and without the label "stale" of the decoded
`Config`. -/
theorem Provision_labels_witness :
    Sample.spec.Properties = some "raw properties" ∧
    Call.ContainerCreate
        { Image := "docker/dind", Env := ["var1=value1"],
          Labels := some [("env", "prod"), ("owner", "ops"), ("tier", "web")] }
        Sample.request.HostConfig
        (Provision.network Sample.spec.LogicalID Sample.request).NetworkingConfig ""
      ∈ (Provision (fun _ => .ok Sample.request) (Sample.plugin "c0ffee" []) 5 Sample.spec).calls ∧
    (some [("env", "prod"), ("owner", "ops"), ("tier", "web")] : GoMap String)
      = (mergeTags [Sample.spec.Tags, Sample.request.Tags]).tags :=
  ⟨rfl, by decide,
    (Provision_labels (fun _ => .ok Sample.request) (Sample.plugin "c0ffee" []) 5 Sample.spec
      "raw properties" Sample.request
      { Image := "docker/dind", Env := ["var1=value1"],
        Labels := some [("env", "prod"), ("owner", "ops"), ("tier", "web")] }
      Sample.request.HostConfig
      (Provision.network Sample.spec.LogicalID Sample.request).NetworkingConfig ""
      rfl rfl (by decide)).1⟩

/-- C5: with a logical ID, an empty `NetworkName` and no `NetworkingConfig` in the decoded
request, the networking configuration passed to the create call has exactly one entry,
for the network "bridge", and its address is the logical ID. -/
theorem Provision_default_network (unmarshal : String → Except String CreateInstanceRequest)
    (p : dockerInstancePlugin) (fuel : Nat) (spec : Spec) (properties lid : String)
    (request : CreateInstanceRequest) (cfg : Config) (hc : Option HostConfig)
    (nc : Option NetworkingConfig) (name : String)
    (hp : spec.Properties = some properties) (hu : unmarshal properties = .ok request)
    (hlid : spec.LogicalID = some lid) (hname : request.NetworkName = "")
    (hnc : request.NetworkingConfig = none)
    (hcall : Call.ContainerCreate cfg hc nc name ∈ (Provision unmarshal p fuel spec).calls) :
    nc = some { EndpointsConfig := some [
      ("bridge", some { EndpointSettings.zero with IPAddress := lid })] } := by
  obtain ⟨properties', request', config, reader, reads, hp', hu', -, -, -, -, -, -, hn, -⟩ :=
    Provision.create_mem unmarshal p fuel spec cfg hc nc name hcall
  rw [hp] at hp'
  cases hp'
  rw [hu] at hu'
  cases hu'
  rw [hn, hlid]
  simp only [Provision.network, hname, hnc, if_true, GoMap.lookupE, GoMap.setE]

/-- C5 at the sample spec, whose logical ID is "10.0.0.5", with a request that has no
networking configuration. -/
theorem Provision_default_network_witness :
    Sample.spec.LogicalID = some "10.0.0.5" ∧ Sample.requestNoNetwork.NetworkName = "" ∧
    Sample.requestNoNetwork.NetworkingConfig = none ∧
    (Provision.network Sample.spec.LogicalID Sample.requestNoNetwork).NetworkingConfig
      = some { EndpointsConfig := some [
          ("bridge", some { IPAddress := "10.0.0.5", Gateway := "", MacAddress := "",
                            Aliases := [] })] } :=
  ⟨rfl, rfl, rfl,
    Provision_default_network (fun _ => .ok Sample.requestNoNetwork)
      (Sample.plugin "c0ffee" []) 5 Sample.spec "raw properties" "10.0.0.5"
      Sample.requestNoNetwork
      { Image := "docker/dind", Env := ["var1=value1"],
        Labels := some [("env", "prod"), ("owner", "ops"), ("tier", "web")] }
      Sample.request.HostConfig
      (Provision.network Sample.spec.LogicalID Sample.requestNoNetwork).NetworkingConfig ""
      rfl rfl rfl rfl rfl (by decide)⟩

/-- C6: with a logical ID, every network name other than the target network has, in the
endpoint map passed to the create call, exactly the entry it has in the decoded request
(none if it has none there), and the names of the map are those of the decoded request
and the target network. -/
theorem Provision_other_networks_untouched
    (unmarshal : String → Except String CreateInstanceRequest)
    (p : dockerInstancePlugin) (fuel : Nat) (spec : Spec) (properties lid : String)
    (request : CreateInstanceRequest) (cfg : Config) (hc : Option HostConfig)
    (nc : Option NetworkingConfig) (name : String)
    (hp : spec.Properties = some properties) (hu : unmarshal properties = .ok request)
    (hlid : spec.LogicalID = some lid)
    (hcall : Call.ContainerCreate cfg hc nc name ∈ (Provision unmarshal p fuel spec).calls) :
    (∀ n, n ≠ targetNetwork request →
      (endpointsOf nc).lookup n = (endpointsOf request.NetworkingConfig).lookup n) ∧
    (∀ n, n ∈ (endpointsOf nc).keys ↔
      n = targetNetwork request ∨ n ∈ (endpointsOf request.NetworkingConfig).keys) := by
  obtain ⟨properties', request', config, reader, reads, hp', hu', -, -, -, -, -, -, hn, -⟩ :=
    Provision.create_mem unmarshal p fuel spec cfg hc nc name hcall
  rw [hp] at hp'
  cases hp'
  rw [hu] at hu'
  cases hu'
  rw [hn, hlid, Provision.network_endpoints]
  constructor
  · intro n hne
    show GoMap.lookupE (GoMap.setE _ _ _) n = _
    rw [GoMap.lookupE_setE, if_neg (fun h => hne h.symm)]
    rfl
  · intro n
    exact GoMap.mem_keys_setE _ _ _ n

/-- C6 at the sample spec and request: the target network is "bridge", and the entry of
the network "backend" reaches the create call as it was decoded. -/
theorem Provision_other_networks_untouched_witness :
    Sample.spec.LogicalID = some "10.0.0.5" ∧ "backend" ≠ targetNetwork Sample.request ∧
    (endpointsOf (Provision.network Sample.spec.LogicalID Sample.request).NetworkingConfig).lookup
        "backend"
      = some (some { IPAddress := "172.18.0.9", Gateway := "172.18.0.1",
                     MacAddress := "02:42:ac:12:00:09", Aliases := ["db"] }) :=
  ⟨rfl, by decide,
    ((Provision_other_networks_untouched (fun _ => .ok Sample.request)
      (Sample.plugin "c0ffee" []) 5 Sample.spec "raw properties" "10.0.0.5" Sample.request
      { Image := "docker/dind", Env := ["var1=value1"],
        Labels := some [("env", "prod"), ("owner", "ops"), ("tier", "web")] }
      Sample.request.HostConfig
      (Provision.network Sample.spec.LogicalID Sample.request).NetworkingConfig ""
      rfl rfl rfl (by decide)).1 "backend" (by decide)).trans (by decide)⟩

/-- C7: when the decoded request has a `Config` whose `Image` is the empty string,
`Provision` returns an error and calls the collaborator not at all, with or without a
logical ID. -/
theorem Provision_image_empty (unmarshal : String → Except String CreateInstanceRequest)
    (p : dockerInstancePlugin) (fuel : Nat) (spec : Spec) (properties : String)
    (request : CreateInstanceRequest) (config : Config)
    (hp : spec.Properties = some properties) (hu : unmarshal properties = .ok request)
    (hcfg : request.Config = some config) (himg : config.Image = "") :
    (Provision unmarshal p fuel spec).calls = [] ∧
    (Provision unmarshal p fuel spec).result
      = some (.error "A Docker image should be specified") := by
  unfold Provision
  simp only [hp, hu, hcfg, himg, if_true]
  exact ⟨trivial, trivial⟩

/-- C7 at the sample spec, which has a logical ID, with a request whose image is empty. -/
theorem Provision_image_empty_witness :
    Sample.requestNoImage.Config = some { Image := "", Env := [], Labels := none } ∧
    (Provision (fun _ => .ok Sample.requestNoImage) (Sample.plugin "c0ffee" []) 5
      Sample.spec).calls = [] ∧
    (Provision (fun _ => .ok Sample.requestNoImage) (Sample.plugin "c0ffee" []) 5
      Sample.spec).result = some (.error "A Docker image should be specified") :=
  ⟨rfl, Provision_image_empty (fun _ => .ok Sample.requestNoImage) (Sample.plugin "c0ffee" []) 5
    Sample.spec "raw properties" Sample.requestNoImage { Image := "", Env := [], Labels := none }
    rfl rfl rfl rfl⟩

/-- C8: when the checks pass, the pull succeeds and its stream reports "EOF" at read `n`
after `n` good reads, then with more than `n` reads allowed `Provision` makes the pull,
the `n + 1` reads and one create call with an empty container name; and when that create
call returns without error, `Provision` fails with an error if the returned identity is
empty, and otherwise returns exactly the returned identity. -/
theorem Provision_identity (unmarshal : String → Except String CreateInstanceRequest)
    (p : dockerInstancePlugin) (fuel : Nat) (spec : Spec) (properties : String)
    (request : CreateInstanceRequest) (config : Config) (reader : Reader) (n : Nat)
    (hp : spec.Properties = some properties) (hu : unmarshal properties = .ok request)
    (hcfg : request.Config = some config) (himg : config.Image ≠ "")
    (hpull : p.client.ImagePull config.Image = .ok reader)
    (heof : reader n = some "EOF") (hreads : ∀ i, i < n → reader i = none) (hfuel : n < fuel) :
    ∃ cfg hc nc,
      (Provision unmarshal p fuel spec).calls
        = Call.ImagePull config.Image ::
            (List.replicate n (Call.Read none) ++ [Call.Read (some "EOF")]) ++
            [Call.ContainerCreate cfg hc nc ""] ∧
      ∀ r, p.client.ContainerCreate cfg hc nc "" = .ok r →
        (Provision unmarshal p fuel spec).result
          = if r.ID = "" then some (.error "Unexpected Docker API response")
            else some (.ok r.ID) := by
  have hd := Provision.drain_eof reader n fuel 0 (by simpa using heof)
    (fun j hj => by simpa using hreads j hj) hfuel
  obtain ⟨hcalls, hres⟩ :=
    Provision.of_drained unmarshal p fuel spec properties request config reader _ hp hu hcfg himg
      hpull hd
  refine ⟨_, _, _, hcalls, ?_⟩
  intro r hr
  rw [hres, hr]

/-- C8 at the sample spec: with the identity "c0ffee" returned the run succeeds with
"c0ffee". -/
theorem Provision_identity_witness :
    (Provision (fun _ => .ok Sample.request) (Sample.plugin "c0ffee" []) 5 Sample.spec).result
      = some (.ok "c0ffee") ∧
    (Provision (fun _ => .ok Sample.request) (Sample.plugin "" []) 5 Sample.spec).result
      = some (.error "Unexpected Docker API response") ∧
    ∃ cfg hc nc,
      (Provision (fun _ => .ok Sample.request) (Sample.plugin "c0ffee" []) 5 Sample.spec).calls
        = Call.ImagePull "docker/dind" ::
            (List.replicate 2 (Call.Read none) ++ [Call.Read (some "EOF")]) ++
            [Call.ContainerCreate cfg hc nc ""] ∧
      ∀ r, (Sample.plugin "c0ffee" []).client.ContainerCreate cfg hc nc "" = .ok r →
        (Provision (fun _ => .ok Sample.request) (Sample.plugin "c0ffee" []) 5 Sample.spec).result
          = if r.ID = "" then some (.error "Unexpected Docker API response")
            else some (.ok r.ID) :=
  ⟨rfl, rfl,
    Provision_identity (fun _ => .ok Sample.request) (Sample.plugin "c0ffee" []) 5 Sample.spec
      "raw properties" Sample.request
      { Image := "docker/dind", Env := ["var1=value1"], Labels := some [("stale", "1")] }
      Sample.reader 2 rfl rfl rfl (by decide) rfl rfl (by decide) (by decide)⟩


/-! ## Lemmas on the filter builder -/

theorem Args.foldl_Add (clause : String → String) (keys : List String) (filter : Args) :
    keys.foldl (fun filter key => Args.Add filter "label" (clause key)) filter
      = filter ++ keys.map (fun key => ("label", clause key)) := by
  induction keys generalizing filter with
  | nil => simp
  | cons k keys ih =>
    rw [List.foldl_cons, ih]
    simp [Args.Add]

/-- The values held under a name are the values added under it. -/
theorem Args.mem_Get (filter : Args) (name value : String) :
    value ∈ Args.Get filter name ↔ (name, value) ∈ filter := by
  unfold Args.Get
  rw [List.mem_dedup, List.mem_map]
  constructor
  · rintro ⟨a, ha, rfl⟩
    rw [List.mem_filter] at ha
    have hn : a.1 = name := by simpa using ha.2
    rw [← hn]
    exact ha.1
  · intro h
    exact ⟨(name, value), List.mem_filter.mpr ⟨h, by simp⟩, rfl⟩

/-- A value is held once under a name, however often it was added. -/
theorem Args.Get_nodup (filter : Args) (name : String) : (Args.Get filter name).Nodup :=
  List.nodup_dedup _

theorem Filters_of_describeGroupRequest (namespaceTags tags : GoMap String) :
    (describeGroupRequest namespaceTags tags).Filters
      = [("status", "created"), ("status", "running")] ++
          (mergeTags [tags, namespaceTags]).keys.map (fun key =>
            ("label", labelClause key ((mergeTags [tags, namespaceTags]).tags.get key))) := by
  unfold describeGroupRequest
  simp only [Args.foldl_Add]
  rfl

/-- The value `describeGroupRequest` reads for a key: the namespace tag when there is
one, the group tag otherwise. -/
theorem mergeTags_get_namespace_wins (namespaceTags tags : GoMap String)
    (hns : namespaceTags.WF) (ht : tags.WF) (k : String)
    (hk : k ∈ (mergeTags [tags, namespaceTags]).keys) :
    (mergeTags [tags, namespaceTags]).tags.get k
      = if k ∈ namespaceTags.keys then namespaceTags.get k else tags.get k := by
  unfold GoMap.get
  by_cases h : k ∈ namespaceTags.keys
  · rw [if_pos h]
    exact congrArg (fun o => o.getD "")
      (mergeTags_lookup_last [tags] [] namespaceTags k hns h (by simp))
  · rw [if_neg h]
    have hk' : k ∈ tags.keys := by
      rw [mergeTags_mem_keys] at hk
      simp only [List.mem_cons, List.mem_singleton, exists_eq_or_imp, exists_eq_left,
        List.not_mem_nil, false_and, exists_false, or_false] at hk
      rcases hk with hk | hk
      · exact hk
      · exact absurd hk h
    exact congrArg (fun o => o.getD "")
      (mergeTags_lookup_last [] [namespaceTags] tags k ht hk' (by simpa using h))

/-! ## Lemmas on the description builder -/

/-- Copying a well-formed label map entry by entry gives the same entries. -/
theorem describeInstances.copy_labels (labels acc : List (String × String))
    (h : ((acc ++ labels).map Prod.fst).Nodup) :
    labels.foldl (fun tags kv => GoMap.setE tags kv.1 kv.2) acc = acc ++ labels := by
  induction labels generalizing acc with
  | nil => simp
  | cons e labels ih =>
    have hne : e.1 ∉ acc.map Prod.fst := by
      intro hmem
      rw [List.map_append, List.map_cons] at h
      have hd := (List.nodup_append.mp h).2.2
      exact hd hmem (List.mem_cons_self _ _)
    rw [List.foldl_cons, GoMap.setE_of_not_mem _ _ _ hne, ih (acc ++ [e]) (by simpa using h)]
    simp

/-- A record whose endpoint map is nil yields one description without a logical ID. -/
theorem describeInstances.body_of_nil_networks (descriptions : List Description)
    (container : Container) (h : container.Networks = none) (hwf : container.Labels.WF) :
    describeInstances.body descriptions container
      = descriptions ++ [{ ID := container.ID, LogicalID := none,
                           Tags := some container.Labels.entries }] := by
  unfold describeInstances.body
  rw [h]
  cases hl : container.Labels with
  | none => rfl
  | some labels =>
    have hc := describeInstances.copy_labels labels [] (by
      rw [hl] at hwf
      simpa [GoMap.WF, GoMap.keys, GoMap.entries] using hwf)
    simp only [hc, List.nil_append, GoMap.entries]

/-- A record whose endpoint map is present and empty yields no description. -/
theorem describeInstances.body_of_empty_networks (descriptions : List Description)
    (container : Container) (h : container.Networks = some []) :
    describeInstances.body descriptions container = descriptions := by
  unfold describeInstances.body
  rw [h]

/-! ## Properties of the filter and description builder -/

/-- C9: the filter of `describeGroupRequest(namespaceTags, groupTags)` is built by adding
the status values created and running, then one label clause "k=v" for each key `k` of
the union of the two key sets, in ascending key order, where `v` is the namespace tag of
`k` when there is one and the group tag of `k` otherwise; the values it holds under
"status" are exactly created and running, and those it holds under "label" are exactly
these clauses. -/
theorem describeGroupRequest_filter (namespaceTags tags : GoMap String)
    (hns : namespaceTags.WF) (ht : tags.WF) :
    ∃ keys : List String,
      List.Sorted (· < ·) keys ∧
      (∀ k, k ∈ keys ↔ k ∈ namespaceTags.keys ∨ k ∈ tags.keys) ∧
      (describeGroupRequest namespaceTags tags).Filters
        = [("status", "created"), ("status", "running")] ++
            keys.map (fun k => ("label", k ++ "=" ++
              (if k ∈ namespaceTags.keys then namespaceTags.get k else tags.get k))) ∧
      (∀ v, v ∈ (describeGroupRequest namespaceTags tags).Filters.Get "status"
        ↔ v = "created" ∨ v = "running") ∧
      (∀ v, v ∈ (describeGroupRequest namespaceTags tags).Filters.Get "label"
        ↔ ∃ k ∈ keys, v = k ++ "=" ++
            (if k ∈ namespaceTags.keys then namespaceTags.get k else tags.get k)) := by
  have hF : (describeGroupRequest namespaceTags tags).Filters
      = [("status", "created"), ("status", "running")] ++
          (mergeTags [tags, namespaceTags]).keys.map (fun k => ("label", k ++ "=" ++
            (if k ∈ namespaceTags.keys then namespaceTags.get k else tags.get k))) := by
    rw [Filters_of_describeGroupRequest]
    congr 1
    apply List.map_congr_left
    intro k hk
    rw [mergeTags_get_namespace_wins namespaceTags tags hns ht k hk]
    rfl
  refine ⟨(mergeTags [tags, namespaceTags]).keys,
    (mergeTags_keys_sorted_lt [tags, namespaceTags]), ?_, hF, ?_, ?_⟩
  · intro k
    rw [mergeTags_mem_keys]
    simp only [List.mem_cons, List.mem_singleton, exists_eq_or_imp, exists_eq_left,
      List.not_mem_nil, false_and, exists_false, or_false]
    exact or_comm
  · intro v
    rw [Args.mem_Get, hF]
    simp
  · intro v
    rw [Args.mem_Get, hF]
    simp only [List.mem_append, List.mem_cons, Prod.mk.injEq, List.mem_singleton,
      List.not_mem_nil, or_false, List.mem_map]
    constructor
    · rintro ((⟨h, -⟩ | ⟨h, -⟩) | ⟨k, hk, -, hv⟩)
      · exact absurd h (by decide)
      · exact absurd h (by decide)
      · exact ⟨k, hk, hv.symm⟩
    · rintro ⟨k, hk, hv⟩
      exact Or.inr ⟨k, hk, trivial, hv.symm⟩

/-- C9 at group tags env=prod and namespace tags env=staging, team=x: the label clauses
are env=staging, then team=x.  Two keys whose clauses have the same text, as "a=b" with
value "c" and "a" with value "b=c", leave one value under "label". -/
theorem describeGroupRequest_filter_witness :
    GoMap.WF (some [("env", "staging"), ("team", "x")]) ∧ GoMap.WF (some [("env", "prod")]) ∧
    (∃ keys : List String,
      List.Sorted (· < ·) keys ∧
      (∀ k, k ∈ keys ↔ k ∈ GoMap.keys (some [("env", "staging"), ("team", "x")])
        ∨ k ∈ GoMap.keys (some [("env", "prod")])) ∧
      (describeGroupRequest (some [("env", "staging"), ("team", "x")])
          (some [("env", "prod")])).Filters
        = [("status", "created"), ("status", "running")] ++
            keys.map (fun k => ("label", k ++ "=" ++
              (if k ∈ GoMap.keys (some [("env", "staging"), ("team", "x")])
               then GoMap.get (some [("env", "staging"), ("team", "x")]) k
               else GoMap.get (some [("env", "prod")]) k))) ∧
      (∀ v, v ∈ (describeGroupRequest (some [("env", "staging"), ("team", "x")])
          (some [("env", "prod")])).Filters.Get "status" ↔ v = "created" ∨ v = "running") ∧
      (∀ v, v ∈ (describeGroupRequest (some [("env", "staging"), ("team", "x")])
          (some [("env", "prod")])).Filters.Get "label"
        ↔ ∃ k ∈ keys, v = k ++ "=" ++
            (if k ∈ GoMap.keys (some [("env", "staging"), ("team", "x")])
             then GoMap.get (some [("env", "staging"), ("team", "x")]) k
             else GoMap.get (some [("env", "prod")]) k))) ∧
    (describeGroupRequest (some [("env", "staging"), ("team", "x")])
        (some [("env", "prod")])).Filters
      = [("status", "created"), ("status", "running"), ("label", "env=staging"),
         ("label", "team=x")] ∧
    (describeGroupRequest (some [("a=b", "c")]) (some [("a", "b=c")])).Filters.Get "label"
      = ["a=b=c"] :=
  ⟨by decide, by decide,
    describeGroupRequest_filter (some [("env", "staging"), ("team", "x")])
      (some [("env", "prod")]) (by decide) (by decide),
    by decide, by decide⟩

/-- C10, the code at a record whose endpoint map is present and empty: the listing holds
the one container "c1", and `describeInstances` returns no description at all. -/
theorem describeInstances_empty_networks_dropped :
    (describeInstances
      (Sample.plugin "c0ffee"
        [{ ID := "c1", Image := "docker/dind", State := "created",
           Labels := some [("env", "staging")], Networks := some [] }])
      none).result = some (.ok []) :=
  rfl

/-! ## Further lemmas on the description builder -/

/-- The loop body only appends to the descriptions gathered so far. -/
theorem describeInstances.body_append (descriptions : List Description) (container : Container) :
    describeInstances.body descriptions container
      = descriptions ++ describeInstances.body [] container := by
  unfold describeInstances.body
  cases container.Networks with
  | none => simp
  | some ns =>
    cases ns with
    | nil => simp
    | cons e ns => simp

/-- The loop yields, record by record and in listing order, what the body yields for it. -/
theorem describeInstances.foldl_body (containers : List Container) (acc : List Description) :
    containers.foldl describeInstances.body acc
      = acc ++ containers.flatMap (describeInstances.body []) := by
  induction containers generalizing acc with
  | nil => simp
  | cons c cs ih =>
    rw [List.foldl_cons, ih, describeInstances.body_append, List.flatMap_cons, List.append_assoc]

/-- A record with an endpoint yields one description, with the address of the endpoint
that the iteration visits first. -/
theorem describeInstances.body_of_networks (descriptions : List Description)
    (container : Container) (name : String) (eps : EndpointSettings)
    (rest : List (String × EndpointSettings))
    (h : container.Networks = some ((name, eps) :: rest)) (hwf : container.Labels.WF) :
    describeInstances.body descriptions container
      = descriptions ++ [{ ID := container.ID, LogicalID := some eps.IPAddress,
                           Tags := some container.Labels.entries }] := by
  unfold describeInstances.body
  rw [h]
  cases hl : container.Labels with
  | none => rfl
  | some labels =>
    have hc := describeInstances.copy_labels labels [] (by
      rw [hl] at hwf
      simpa [GoMap.WF, GoMap.keys, GoMap.entries] using hwf)
    simp only [hc, List.nil_append, GoMap.entries]

/-- After a successful list call, `describeInstances` returns the descriptions of the loop. -/
theorem describeInstances.result_of_list (p : dockerInstancePlugin) (tags : GoMap String)
    (containers : List Container)
    (h : p.client.ContainerList (describeGroupRequest p.namespaceTags tags) = .ok containers) :
    (describeInstances p tags).result
      = some (.ok (containers.foldl describeInstances.body [])) := by
  unfold describeInstances
  simp only [h]

/-- The ids returned are those of the records listed, in listing order, without the
records whose endpoint map is present and empty. -/
theorem describeInstances.ids (containers : List Container) :
    (containers.foldl describeInstances.body []).map (fun d => d.ID)
      = (containers.filter (fun c => decide (c.Networks ≠ some []))).map (fun c => c.ID) := by
  rw [describeInstances.foldl_body, List.nil_append]
  induction containers with
  | nil => rfl
  | cons c cs ih =>
    rw [List.flatMap_cons, List.map_append, ih]
    unfold describeInstances.body
    cases hn : c.Networks with
    | none => simp [List.filter_cons, hn]
    | some ns =>
      cases ns with
      | nil => simp [List.filter_cons, hn]
      | cons e ns => simp [List.filter_cons, hn]

/-! ## Further properties of the description builder, and `Destroy` -/

/-- C11: after a successful list call, a record with one or more network endpoints and a
well-formed label map yields exactly one description, placed between the descriptions of
the records listed before it and of those listed after it; its logical ID is the address
of one of the record's endpoints and its tags are the record's labels. -/
theorem describeInstances_one_per_record (p : dockerInstancePlugin) (tags : GoMap String)
    (pre post : List Container) (c : Container) (ns : List (String × EndpointSettings))
    (hlist : p.client.ContainerList (describeGroupRequest p.namespaceTags tags)
      = .ok (pre ++ c :: post))
    (hns : c.Networks = some ns) (hne : ns ≠ []) (hwf : c.Labels.WF) :
    ∃ name eps, (name, eps) ∈ ns ∧
      (describeInstances p tags).result
        = some (.ok (pre.foldl describeInstances.body [] ++
            { ID := c.ID, LogicalID := some eps.IPAddress, Tags := some c.Labels.entries } ::
            post.foldl describeInstances.body [])) := by
  cases ns with
  | nil => exact absurd rfl hne
  | cons e rest =>
    obtain ⟨name, eps⟩ := e
    refine ⟨name, eps, List.mem_cons_self _ _, ?_⟩
    rw [describeInstances.result_of_list p tags _ hlist, List.foldl_append, List.foldl_cons,
      describeInstances.body_of_networks _ c name eps rest hns hwf,
      describeInstances.foldl_body post (_ ++ _), describeInstances.foldl_body post []]
    simp

/-- C11 at a listing of two records, the second of which is on two networks: it yields
one description, with the address of one of its two endpoints. -/
theorem describeInstances_one_per_record_witness :
    ∃ name eps,
      (name, eps) ∈ [("bridge", { EndpointSettings.zero with IPAddress := "172.17.0.2" }),
                     ("backend", { EndpointSettings.zero with IPAddress := "172.18.0.9" })] ∧
      (describeInstances
        (Sample.plugin "c0ffee"
          [{ ID := "c1", Image := "docker/dind", State := "running", Labels := none,
             Networks := none },
           { ID := "c2", Image := "docker/dind", State := "running",
             Labels := some [("env", "staging"), ("team", "x")],
             Networks := some [
               ("bridge", { EndpointSettings.zero with IPAddress := "172.17.0.2" }),
               ("backend", { EndpointSettings.zero with IPAddress := "172.18.0.9" })] }])
        none).result
        = some (.ok ([{ ID := "c1", Image := "docker/dind", State := "running", Labels := none,
                        Networks := none }].foldl describeInstances.body [] ++
            { ID := "c2", LogicalID := some eps.IPAddress,
              Tags := some [("env", "staging"), ("team", "x")] } ::
            ([] : List Container).foldl describeInstances.body [])) :=
  describeInstances_one_per_record
    (Sample.plugin "c0ffee"
      [{ ID := "c1", Image := "docker/dind", State := "running", Labels := none,
         Networks := none },
       { ID := "c2", Image := "docker/dind", State := "running",
         Labels := some [("env", "staging"), ("team", "x")],
         Networks := some [
           ("bridge", { EndpointSettings.zero with IPAddress := "172.17.0.2" }),
           ("backend", { EndpointSettings.zero with IPAddress := "172.18.0.9" })] }])
    none
    [{ ID := "c1", Image := "docker/dind", State := "running", Labels := none,
       Networks := none }]
    []
    { ID := "c2", Image := "docker/dind", State := "running",
      Labels := some [("env", "staging"), ("team", "x")],
      Networks := some [
        ("bridge", { EndpointSettings.zero with IPAddress := "172.17.0.2" }),
        ("backend", { EndpointSettings.zero with IPAddress := "172.18.0.9" })] }
    [("bridge", { EndpointSettings.zero with IPAddress := "172.17.0.2" }),
     ("backend", { EndpointSettings.zero with IPAddress := "172.18.0.9" })]
    rfl rfl (by decide) (by decide)

/-- C12, the code at a listing of the records "c1", "c2", "c3" of which "c2" has an
endpoint map that is present and empty: the descriptions returned are those of "c1" and
"c3", so the ids returned are not the ids listed. -/
theorem describeInstances_ids_skip_empty_networks :
    (describeInstances
      (Sample.plugin "c0ffee"
        [{ ID := "c1", Image := "docker/dind", State := "running", Labels := none,
           Networks := none },
         { ID := "c2", Image := "docker/dind", State := "created", Labels := none,
           Networks := some [] },
         { ID := "c3", Image := "docker/dind", State := "running", Labels := none,
           Networks := some [
             ("bridge", { EndpointSettings.zero with IPAddress := "172.17.0.3" })] }])
      none).result
      = some (.ok [{ ID := "c1", LogicalID := none, Tags := some [] },
                   { ID := "c3", LogicalID := some "172.17.0.3", Tags := some [] }]) :=
  rfl

/-- C13: `Destroy` makes exactly one remove call, for the given id and with the options
force, remove volumes and keep links, and returns what the collaborator returned: its
error unchanged, or success. -/
theorem Destroy_forced_removal (p : dockerInstancePlugin) (id : String) :
    (Destroy p id).calls
      = [Call.ContainerRemove id { RemoveVolumes := true, RemoveLinks := false, Force := true }] ∧
    (Destroy p id).result
      = some (match p.client.ContainerRemove id
                { RemoveVolumes := true, RemoveLinks := false, Force := true } with
              | some err => .error err
              | none => .ok ()) := by
  cases h : p.client.ContainerRemove id
      { RemoveVolumes := true, RemoveLinks := false, Force := true } with
  | none => constructor <;> simp [Destroy, h]
  | some err => constructor <;> simp [Destroy, h]

/-! ## Further lemmas on the request translator -/

/-- With enough fuel the read loop reaches a read that fails with another error than "EOF"
and stops there with that error. -/
theorem Provision.drain_error (reader : Reader) (err : String) (herr : err ≠ "EOF") (n : Nat) :
    ∀ (fuel i : Nat), reader (i + n) = some err → (∀ j, j < n → reader (i + j) = none) →
      n < fuel →
      Provision.drain reader fuel i
        = (List.replicate n (Call.Read none) ++ [Call.Read (some err)], some (.error err)) := by
  induction n with
  | zero =>
    intro fuel i hfail _ hfuel
    obtain ⟨fuel, rfl⟩ : ∃ f, fuel = f + 1 := ⟨fuel - 1, by omega⟩
    simp only [Nat.add_zero] at hfail
    simp [Provision.drain, hfail, herr]
  | succ n ih =>
    intro fuel i hfail hok hfuel
    obtain ⟨fuel, rfl⟩ : ∃ f, fuel = f + 1 := ⟨fuel - 1, by omega⟩
    have h0 : reader i = none := by simpa using hok 0 (by omega)
    have hrest := ih fuel (i + 1) (by rw [← hfail]; congr 1; omega)
      (fun j hj => by rw [← hok (j + 1) (by omega)]; congr 1; omega) (by omega)
    simp [Provision.drain, h0, hrest, List.replicate_succ]

/-- A read loop that ended by the `break` made a read reporting "EOF" as its last read. -/
theorem Provision.drain_ok_last (reader : Reader) (fuel i : Nat) (reads : List Call)
    (h : Provision.drain reader fuel i = (reads, some (.ok ()))) :
    ∃ pre, reads = pre ++ [Call.Read (some "EOF")] := by
  induction fuel generalizing i reads with
  | zero => simp [Provision.drain] at h
  | succ fuel ih =>
    unfold Provision.drain at h
    cases hr : reader i with
    | none =>
      simp only [hr, Prod.mk.injEq] at h
      obtain ⟨pre, hpre⟩ := ih (i + 1) (Provision.drain reader fuel (i + 1)).1 (by rw [← h.2])
      exact ⟨Call.Read none :: pre, by rw [← h.1, hpre]; rfl⟩
    | some err =>
      simp only [hr] at h
      by_cases he : err = "EOF"
      · simp only [he, if_true, Prod.mk.injEq] at h
        exact ⟨[], by rw [← h.1]; rfl⟩
      · simp [he] at h

/-- The run of `Provision` once the checks have passed, the pull has succeeded and a read
has failed with another error than "EOF". -/
theorem Provision.of_read_error (unmarshal : String → Except String CreateInstanceRequest)
    (p : dockerInstancePlugin) (fuel : Nat) (spec : Spec) (properties : String)
    (request : CreateInstanceRequest) (config : Config) (reader : Reader) (reads : List Call)
    (err : String)
    (hp : spec.Properties = some properties) (hu : unmarshal properties = .ok request)
    (hcfg : request.Config = some config) (himg : config.Image ≠ "")
    (hpull : p.client.ImagePull config.Image = .ok reader)
    (hd : Provision.drain reader fuel 0 = (reads, some (.error err))) :
    (Provision unmarshal p fuel spec).calls = Call.ImagePull config.Image :: reads ∧
    (Provision unmarshal p fuel spec).result = some (.error err) := by
  unfold Provision
  simp only [hp, hu, hcfg, himg, if_false, hpull, hd]
  exact ⟨trivial, trivial⟩

/-! ## Further properties of the request translator -/

/-- C14: when one of the checks before the image pull fails (no `Properties`, a decode
failure, no `Config`, an empty image), `Provision` returns an error and calls the
collaborator not at all; with `Properties` that decode to a request without `Config`
the error is "Config should be set". -/
theorem Provision_fails_before_pull (unmarshal : String → Except String CreateInstanceRequest)
    (p : dockerInstancePlugin) (fuel : Nat) (spec : Spec)
    (h : spec.Properties = none ∨
      (∃ properties err, spec.Properties = some properties ∧
        unmarshal properties = .error err) ∨
      (∃ properties request, spec.Properties = some properties ∧
        unmarshal properties = .ok request ∧ request.Config = none) ∨
      (∃ properties request config, spec.Properties = some properties ∧
        unmarshal properties = .ok request ∧ request.Config = some config ∧
        config.Image = "")) :
    (Provision unmarshal p fuel spec).calls = [] ∧
    (∃ msg, (Provision unmarshal p fuel spec).result = some (.error msg)) ∧
    ((∃ properties request, spec.Properties = some properties ∧
        unmarshal properties = .ok request ∧ request.Config = none) →
      (Provision unmarshal p fuel spec).result = some (.error "Config should be set")) := by
  have hcfgnone : (∃ properties request, spec.Properties = some properties ∧
        unmarshal properties = .ok request ∧ request.Config = none) →
      (Provision unmarshal p fuel spec).calls = [] ∧
      (Provision unmarshal p fuel spec).result = some (.error "Config should be set") := by
    rintro ⟨properties, request, hp, hu, hcfg⟩
    unfold Provision
    simp only [hp, hu, hcfg]
    exact ⟨trivial, trivial⟩
  refine ⟨?_, ?_, fun h' => (hcfgnone h').2⟩
  · rcases h with hp | ⟨properties, err, hp, hu⟩ | h' | ⟨properties, request, config, hp, hu, hcfg, himg⟩
    · unfold Provision
      simp only [hp]
    · unfold Provision
      simp only [hp, hu]
    · exact (hcfgnone h').1
    · unfold Provision
      simp only [hp, hu, hcfg, himg, if_true]
  · rcases h with hp | ⟨properties, err, hp, hu⟩ | h' | ⟨properties, request, config, hp, hu, hcfg, himg⟩
    · refine ⟨"Properties must be set", ?_⟩
      unfold Provision
      simp only [hp]
    · refine ⟨"invalid input formatting: " ++ err, ?_⟩
      unfold Provision
      simp only [hp, hu]
    · exact ⟨_, (hcfgnone h').2⟩
    · refine ⟨"A Docker image should be specified", ?_⟩
      unfold Provision
      simp only [hp, hu, hcfg, himg, if_true]

/-- C14 at the sample spec with a request that has no `Config`. -/
theorem Provision_fails_before_pull_witness :
    Sample.requestNoConfig.Config = none ∧
    (Provision (fun _ => .ok Sample.requestNoConfig) (Sample.plugin "c0ffee" []) 5
      Sample.spec).calls = [] ∧
    (∃ msg, (Provision (fun _ => .ok Sample.requestNoConfig) (Sample.plugin "c0ffee" []) 5
      Sample.spec).result = some (.error msg)) ∧
    ((∃ properties request, Sample.spec.Properties = some properties ∧
        (fun _ => .ok Sample.requestNoConfig : String → Except String CreateInstanceRequest)
          properties = .ok request ∧ request.Config = none) →
      (Provision (fun _ => .ok Sample.requestNoConfig) (Sample.plugin "c0ffee" []) 5
        Sample.spec).result = some (.error "Config should be set")) :=
  ⟨rfl, Provision_fails_before_pull (fun _ => .ok Sample.requestNoConfig)
    (Sample.plugin "c0ffee" []) 5 Sample.spec
    (Or.inr (Or.inr (Or.inl ⟨"raw properties", Sample.requestNoConfig, rfl, rfl, rfl⟩)))⟩

/-- C15: when the checks pass, the pull succeeds and read `n` of its stream fails, after
`n` good reads, with an error that is not "EOF", then with more than `n` reads allowed
`Provision` returns that error after the pull and the `n + 1` reads, and makes no create
call; and in every run a create call comes right after a read that reported "EOF". -/
theorem Provision_read_error (unmarshal : String → Except String CreateInstanceRequest)
    (p : dockerInstancePlugin) (fuel : Nat) (spec : Spec) :
    (∀ (properties : String) (request : CreateInstanceRequest) (config : Config)
        (reader : Reader) (n : Nat) (err : String),
      spec.Properties = some properties → unmarshal properties = .ok request →
      request.Config = some config → config.Image ≠ "" →
      p.client.ImagePull config.Image = .ok reader →
      reader n = some err → err ≠ "EOF" → (∀ i, i < n → reader i = none) → n < fuel →
        (Provision unmarshal p fuel spec).result = some (.error err) ∧
        (Provision unmarshal p fuel spec).calls
          = Call.ImagePull config.Image ::
              (List.replicate n (Call.Read none) ++ [Call.Read (some err)]) ∧
        ∀ cfg hc nc name,
          Call.ContainerCreate cfg hc nc name ∉ (Provision unmarshal p fuel spec).calls) ∧
    (∀ cfg hc nc name,
      Call.ContainerCreate cfg hc nc name ∈ (Provision unmarshal p fuel spec).calls →
        ∃ pre, (Provision unmarshal p fuel spec).calls
          = pre ++ [Call.Read (some "EOF"), Call.ContainerCreate cfg hc nc name]) := by
  constructor
  · intro properties request config reader n err hp hu hcfg himg hpull hfail herr hreads hfuel
    have hd := Provision.drain_error reader err herr n fuel 0 (by simpa using hfail)
      (fun j hj => by simpa using hreads j hj) hfuel
    obtain ⟨hcalls, hres⟩ :=
      Provision.of_read_error unmarshal p fuel spec properties request config reader _ err
        hp hu hcfg himg hpull hd
    refine ⟨hres, hcalls, ?_⟩
    intro cfg hc nc name hmem
    rw [hcalls] at hmem
    simp only [List.mem_cons, reduceCtorEq, false_or, List.mem_append, List.mem_replicate,
      and_false, List.mem_singleton, List.not_mem_nil, or_false] at hmem
  · intro cfg hc nc name hmem
    obtain ⟨properties, request, config, reader, reads, hp, hu, hcfg, himg, hpull, hd, h1, h2,
      h3, h4⟩ := Provision.create_mem unmarshal p fuel spec cfg hc nc name hmem
    obtain ⟨hcalls, -⟩ :=
      Provision.of_drained unmarshal p fuel spec properties request config reader reads
        hp hu hcfg himg hpull hd
    obtain ⟨pre, hpre⟩ := Provision.drain_ok_last reader fuel 0 reads hd
    refine ⟨Call.ImagePull config.Image :: pre, ?_⟩
    rw [hcalls, hpre, h1, h2, h3, h4]
    simp

/-- C15 at a pull stream whose second read fails with "connection reset by peer": the run
returns that error after the pull and two reads; and at the sample run, which makes a
create call, the call comes right after the read that reported "EOF". -/
theorem Provision_read_error_witness :
    ((Provision (fun _ => .ok Sample.request) Sample.brokenPlugin 5 Sample.spec).result
        = some (.error "connection reset by peer") ∧
      (Provision (fun _ => .ok Sample.request) Sample.brokenPlugin 5 Sample.spec).calls
        = Call.ImagePull "docker/dind" ::
            (List.replicate 1 (Call.Read none) ++
              [Call.Read (some "connection reset by peer")]) ∧
      ∀ cfg hc nc name, Call.ContainerCreate cfg hc nc name ∉
        (Provision (fun _ => .ok Sample.request) Sample.brokenPlugin 5 Sample.spec).calls) ∧
    (∃ pre,
      (Provision (fun _ => .ok Sample.request) (Sample.plugin "c0ffee" []) 5 Sample.spec).calls
        = pre ++ [Call.Read (some "EOF"),
            Call.ContainerCreate
              { Image := "docker/dind", Env := ["var1=value1"],
                Labels := some [("env", "prod"), ("owner", "ops"), ("tier", "web")] }
              Sample.request.HostConfig
              (Provision.network Sample.spec.LogicalID Sample.request).NetworkingConfig ""]) :=
  ⟨(Provision_read_error (fun _ => .ok Sample.request) Sample.brokenPlugin 5 Sample.spec).1
      "raw properties" Sample.request
      { Image := "docker/dind", Env := ["var1=value1"], Labels := some [("stale", "1")] }
      Sample.brokenReader 1 "connection reset by peer" rfl rfl rfl (by decide) rfl rfl
      (by decide) (by decide) (by decide),
    (Provision_read_error (fun _ => .ok Sample.request) (Sample.plugin "c0ffee" []) 5
      Sample.spec).2 _ _ _ _ (by decide)⟩

/-! ## Further lemmas on the tag reconciler -/

theorem mergeTags.step_warnings (st : MergeState) (kv : String × String) :
    (mergeTags.step st kv).warnings
      = if kv.1 ∈ st.tags.map Prod.fst
        then st.warnings ++ ["Ovewriting tag value for key " ++ kv.1] else st.warnings := by
  unfold mergeTags.step
  by_cases h : kv.1 ∈ st.tags.map Prod.fst
  · rw [if_pos ((GoMap.lookupE_isSome_iff _ _).mpr h), if_pos h]
  · rw [if_neg (fun h' => h ((GoMap.lookupE_isSome_iff _ _).mp h')), if_neg h]

/-- The inner loop over a well-formed tag map logs one warning for each of its keys that
the merged map already holds, in iteration order. -/
theorem mergeTags.foldl_step_warnings (es : List (String × String)) (st : MergeState)
    (hwf : (es.map Prod.fst).Nodup) :
    (es.foldl mergeTags.step st).warnings
      = st.warnings ++
          ((es.map Prod.fst).filter (fun k => decide (k ∈ st.tags.map Prod.fst))).map
            (fun k => "Ovewriting tag value for key " ++ k) := by
  induction es generalizing st with
  | nil => simp
  | cons e es ih =>
    simp only [List.map_cons, List.nodup_cons] at hwf
    have hfilter : (es.map Prod.fst).filter
          (fun k => decide (k ∈ (mergeTags.step st e).tags.map Prod.fst))
        = (es.map Prod.fst).filter (fun k => decide (k ∈ st.tags.map Prod.fst)) := by
      apply List.filter_congr
      intro k hk
      have hne : k ≠ e.1 := fun h => hwf.1 (h ▸ hk)
      rw [mergeTags.step_tags]
      simp only [GoMap.mem_keys_setE, hne, false_or]
    rw [List.foldl_cons, ih _ hwf.2, hfilter, mergeTags.step_warnings, List.map_cons,
      List.filter_cons]
    by_cases h : e.1 ∈ st.tags.map Prod.fst
    · simp [h]
    · simp [h]

/-- Text appended to the same beginning is the same text. -/
theorem warning_text_inj (a b c : String) (h : a ++ b = a ++ c) : b = c := by
  have hd : (a ++ b).data = (a ++ c).data := by rw [h]
  rw [String.data_append, String.data_append] at hd
  exact String.ext (List.append_cancel_left hd)

/-- Two sequences of tag maps with the same keys overall get the same key list. -/
theorem mergeTags_keys_eq_of_mem_iff (ms ms' : List (GoMap String))
    (h : ∀ k, (∃ m ∈ ms, k ∈ GoMap.keys m) ↔ (∃ m ∈ ms', k ∈ GoMap.keys m)) :
    (mergeTags ms).keys = (mergeTags ms').keys := by
  have hs := mergeTags_keys_sorted_lt ms
  have hs' := mergeTags_keys_sorted_lt ms'
  apply List.eq_of_perm_of_sorted _ hs hs'
  rw [List.perm_ext_iff_of_nodup hs.nodup hs'.nodup]
  intro k
  rw [mergeTags_mem_keys, mergeTags_mem_keys]
  exact h k

/-- Tag maps that pairwise hold the same entries hold the same keys overall. -/
theorem GoMap.exists_mem_keys_of_forall₂ (ms ms' : List (GoMap String)) (k : String)
    (h : List.Forall₂ (fun m m' => (GoMap.entries m).Perm (GoMap.entries m')) ms ms') :
    (∃ m ∈ ms, k ∈ GoMap.keys m) ↔ (∃ m ∈ ms', k ∈ GoMap.keys m) := by
  induction h with
  | nil => simp
  | cons hm _ ih =>
    simp only [List.mem_cons, exists_eq_or_imp, ih]
    have : ∀ {a b : GoMap String}, (GoMap.entries a).Perm (GoMap.entries b) →
        (k ∈ GoMap.keys a ↔ k ∈ GoMap.keys b) := fun hab => (hab.map Prod.fst).mem_iff
    rw [this hm]

/-- A source without entries, nil or empty, leaves the loops where they were. -/
theorem mergeTags.loop_filter_nonempty (ms : List (GoMap String)) (st : MergeState) :
    mergeTags.loop st (ms.filter (fun m => decide (GoMap.entries m ≠ [])))
      = mergeTags.loop st ms := by
  induction ms generalizing st with
  | nil => rfl
  | cons m ms ih =>
    by_cases h : GoMap.entries m = []
    · rw [List.filter_cons_of_neg (by simpa using h), mergeTags.loop_cons, h, ih]
      rfl
    · rw [List.filter_cons_of_pos (by simpa using h), mergeTags.loop_cons, mergeTags.loop_cons, ih]

/-- In a text of the form key, "=", value, with no "=" in the key, the key and the value
can be read off. -/
theorem labelClause.chars_inj (a b c d : List Char) (ha : '=' ∉ a) (hc : '=' ∉ c)
    (h : a ++ '=' :: b = c ++ '=' :: d) : a = c ∧ b = d := by
  induction a generalizing c with
  | nil =>
    cases c with
    | nil => simpa using h
    | cons x c =>
      simp only [List.nil_append, List.cons_append, List.cons.injEq] at h
      exact absurd (by rw [← h.1]; exact List.mem_cons_self _ _) hc
  | cons y a ih =>
    cases c with
    | nil =>
      simp only [List.nil_append, List.cons_append, List.cons.injEq] at h
      exact absurd (by rw [← h.1]; exact List.mem_cons_self _ _) ha
    | cons x c =>
      simp only [List.cons_append, List.cons.injEq] at h
      obtain ⟨hac, hbd⟩ := ih c (fun hm => ha (List.mem_cons_of_mem _ hm))
        (fun hm => hc (List.mem_cons_of_mem _ hm)) h.2
      exact ⟨by rw [h.1, hac], hbd⟩

/-- The warnings of a merge of two well-formed sources: one for each key of the second
source that the first source holds too, in the iteration order of the second. -/
theorem mergeTags.warnings_of_pair (A B : GoMap String) (hA : A.WF) (hB : B.WF) :
    (mergeTags [A, B]).warnings
      = (B.keys.filter (fun k => decide (k ∈ A.keys))).map
          (fun k => "Ovewriting tag value for key " ++ k) := by
  show (B.entries.foldl mergeTags.step (A.entries.foldl mergeTags.step MergeState.init)).warnings
    = _
  rw [mergeTags.foldl_step_warnings _ _ hB, mergeTags.foldl_step_warnings _ _ hA]
  have h1 : (A.entries.map Prod.fst).filter
      (fun k => decide (k ∈ MergeState.init.tags.map Prod.fst)) = [] := by
    simp [MergeState.init]
  have h2 : (B.entries.map Prod.fst).filter
        (fun k => decide (k ∈ (A.entries.foldl mergeTags.step MergeState.init).tags.map Prod.fst))
      = (B.entries.map Prod.fst).filter (fun k => decide (k ∈ A.keys)) := by
    apply List.filter_congr
    intro k _
    have hmem := mergeTags.foldl_step_mem_keys A.entries MergeState.init k
    simp only [MergeState.init, List.map_nil, List.not_mem_nil, false_or] at hmem
    simp only [MergeState.init, GoMap.keys, hmem]
  rw [h1, h2]
  simp [MergeState.init, GoMap.keys]

/-! ## Further properties of the tag reconciler and of the label clauses -/

/-- C16: for two well-formed sources A and B, `mergeTags(A, B)` logs exactly one overwrite
warning for each key held by both and none for any other key, so the warnings are as many
as the shared keys; and it still returns the merged map, with the value of B for a key of
B and the value of A for a key of A only. -/
theorem mergeTags_warnings (A B : GoMap String) (hA : A.WF) (hB : B.WF) :
    (mergeTags [A, B]).warnings
      = (B.keys.filter (fun k => decide (k ∈ A.keys))).map
          (fun k => "Ovewriting tag value for key " ++ k) ∧
    (∀ k, (mergeTags [A, B]).warnings.count ("Ovewriting tag value for key " ++ k)
      = if k ∈ A.keys ∧ k ∈ B.keys then 1 else 0) ∧
    (mergeTags [A, B]).warnings.length = (A.keys.toFinset ∩ B.keys.toFinset).card ∧
    (∀ k, k ∈ B.keys → (mergeTags [A, B]).tags.lookup k = B.lookup k) ∧
    (∀ k, k ∈ A.keys → k ∉ B.keys → (mergeTags [A, B]).tags.lookup k = A.lookup k) := by
  have hw := mergeTags.warnings_of_pair A B hA hB
  have hnd : (B.keys.filter (fun k => decide (k ∈ A.keys))).Nodup := List.Nodup.filter _ hB
  refine ⟨hw, ?_, ?_, ?_, ?_⟩
  · intro k
    rw [hw, List.count_map_of_injective _ _
      (fun a b h => warning_text_inj "Ovewriting tag value for key " a b h),
      List.count_eq_of_nodup hnd]
    simp only [List.mem_filter, decide_eq_true_eq, and_comm]
  · rw [hw, List.length_map, ← List.toFinset_card_of_nodup hnd]
    congr 1
    ext k
    simp only [List.mem_toFinset, List.mem_filter, decide_eq_true_eq, Finset.mem_inter, and_comm]
  · intro k hk
    exact mergeTags_lookup_last [A] [] B k hB hk (by simp)
  · intro k hk hnk
    exact mergeTags_lookup_last [] [B] A k hA hk (by simpa using hnk)

/-- C16 at A = env: dev, owner: ops and B = env: prod, tier: web: the one shared key
"env" gets the one warning. -/
theorem mergeTags_warnings_witness :
    GoMap.WF (some [("env", "dev"), ("owner", "ops")]) ∧
    GoMap.WF (some [("env", "prod"), ("tier", "web")]) ∧
    (mergeTags [some [("env", "dev"), ("owner", "ops")],
        some [("env", "prod"), ("tier", "web")]]).warnings
      = ["Ovewriting tag value for key env"] ∧
    (mergeTags [some [("env", "dev"), ("owner", "ops")],
        some [("env", "prod"), ("tier", "web")]]).warnings.length
      = ((GoMap.keys (some [("env", "dev"), ("owner", "ops")])).toFinset
          ∩ (GoMap.keys (some [("env", "prod"), ("tier", "web")])).toFinset).card :=
  ⟨by decide, by decide, by decide,
    (mergeTags_warnings (some [("env", "dev"), ("owner", "ops")])
      (some [("env", "prod"), ("tier", "web")]) (by decide) (by decide)).2.2.1⟩

/-- C17: the key list of `mergeTags` is the same for a sequence of tag maps and for any
reordering of it, each map being iterated in any order of its entries. -/
theorem mergeTags_keys_order_independent (ms mid ms' : List (GoMap String))
    (hperm : ms.Perm mid)
    (hiter : List.Forall₂ (fun m m' => (GoMap.entries m).Perm (GoMap.entries m')) mid ms') :
    (mergeTags ms).keys = (mergeTags ms').keys := by
  apply mergeTags_keys_eq_of_mem_iff
  intro k
  rw [← GoMap.exists_mem_keys_of_forall₂ mid ms' k hiter]
  constructor
  · rintro ⟨m, hm, hk⟩
    exact ⟨m, hperm.mem_iff.mp hm, hk⟩
  · rintro ⟨m, hm, hk⟩
    exact ⟨m, hperm.mem_iff.mpr hm, hk⟩

/-- C17 at two sources given in the other order, the first of them iterated in the other
order: the key list is "a", "b", "c" both times, while the value of "b" differs. -/
theorem mergeTags_keys_order_independent_witness :
    (mergeTags [some [("b", "1"), ("a", "2")], some [("b", "3"), ("c", "4")]]).keys
        = (mergeTags [some [("b", "3"), ("c", "4")], some [("a", "2"), ("b", "1")]]).keys ∧
    (mergeTags [some [("b", "1"), ("a", "2")], some [("b", "3"), ("c", "4")]]).keys
        = ["a", "b", "c"] ∧
    (mergeTags [some [("b", "1"), ("a", "2")], some [("b", "3"), ("c", "4")]]).tags.lookup "b"
        = some "3" ∧
    (mergeTags [some [("b", "3"), ("c", "4")], some [("a", "2"), ("b", "1")]]).tags.lookup "b"
        = some "1" :=
  ⟨mergeTags_keys_order_independent
      [some [("b", "1"), ("a", "2")], some [("b", "3"), ("c", "4")]]
      [some [("b", "3"), ("c", "4")], some [("b", "1"), ("a", "2")]]
      [some [("b", "3"), ("c", "4")], some [("a", "2"), ("b", "1")]]
      (List.Perm.swap _ _ _)
      (List.Forall₂.cons (List.Perm.refl _)
        (List.Forall₂.cons (List.Perm.swap _ _ _) List.Forall₂.nil)),
    by decide, by decide, by decide⟩

/-- C18: the key list that `mergeTags` returns holds exactly the keys of the merged map
it returns, each once; these are the keys of all the sources together; the list is as long
as the merged map has entries; and sources without entries, nil or empty, change nothing. -/
theorem mergeTags_keys_of_merged (tagMaps : List (GoMap String)) :
    (mergeTags tagMaps).keys.Perm (GoMap.keys (mergeTags tagMaps).tags) ∧
    (mergeTags tagMaps).keys.Nodup ∧
    GoMap.WF (mergeTags tagMaps).tags ∧
    (∀ k, k ∈ (mergeTags tagMaps).keys ↔ ∃ m ∈ tagMaps, k ∈ GoMap.keys m) ∧
    (mergeTags tagMaps).keys.length = (GoMap.entries (mergeTags tagMaps).tags).length ∧
    mergeTags (tagMaps.filter (fun m => decide (GoMap.entries m ≠ []))) = mergeTags tagMaps := by
  obtain ⟨hk, hn⟩ := mergeTags.loop_inv tagMaps _ MergeState.init_inv
  have hperm : (mergeTags tagMaps).keys.Perm (GoMap.keys (mergeTags tagMaps).tags) := by
    rw [mergeTags_keys_eq, mergeTags_tags_eq]
    show (sortStrings _).Perm ((mergeTags.loop MergeState.init tagMaps).tags.map Prod.fst)
    rw [← hk]
    exact sortStrings_perm _
  refine ⟨hperm, (mergeTags_keys_sorted_lt tagMaps).nodup, ?_, mergeTags_mem_keys tagMaps, ?_, ?_⟩
  · exact hperm.nodup_iff.mp (mergeTags_keys_sorted_lt tagMaps).nodup
  · rw [hperm.length_eq]
    simp [GoMap.keys]
  · unfold mergeTags
    rw [mergeTags.loop_filter_nonempty]

/-- C19: for keys without "=", the label clause determines the key and the value, so that
two different tags never give the same clause. -/
theorem labelClause_injective (k₁ v₁ k₂ v₂ : String)
    (h₁ : '=' ∉ k₁.toList) (h₂ : '=' ∉ k₂.toList) :
    (labelClause k₁ v₁ = labelClause k₂ v₂ → k₁ = k₂ ∧ v₁ = v₂) ∧
    ((k₁, v₁) ≠ (k₂, v₂) → labelClause k₁ v₁ ≠ labelClause k₂ v₂) := by
  have key : labelClause k₁ v₁ = labelClause k₂ v₂ → k₁ = k₂ ∧ v₁ = v₂ := by
    intro h
    have hd : (labelClause k₁ v₁).data = (labelClause k₂ v₂).data := by rw [h]
    unfold labelClause at hd
    simp only [String.data_append, List.append_assoc] at hd
    obtain ⟨hk, hv⟩ := labelClause.chars_inj k₁.data v₁.data k₂.data v₂.data h₁ h₂ hd
    exact ⟨String.ext hk, String.ext hv⟩
  refine ⟨key, fun hne h => hne ?_⟩
  obtain ⟨hk, hv⟩ := key h
  rw [hk, hv]

/-- C19 at the keys "env" and "tier", which hold no "=": the clauses differ.  With a
key that holds "=" two different tags can give the same clause. -/
theorem labelClause_injective_witness :
    '=' ∉ "env".toList ∧ '=' ∉ "tier".toList ∧
    labelClause "env" "a=b" ≠ labelClause "tier" "a=b" ∧
    labelClause "a" "b=c" = labelClause "a=b" "c" :=
  ⟨by decide, by decide,
    (labelClause_injective "env" "a=b" "tier" "a=b" (by decide) (by decide)).2 (by decide),
    by decide⟩

end Infrakit
